import Mathlib

/-!
A shallow embedding of the bebop-lang Lisp core (src/lisp/{mod,env,eval,builtin,parser}.rs).

Modelling conventions:
* Rust `String`/`&str` values are modelled as `List Char`.
* Rust `f64` numbers are modelled as `Option Q` where `Q` is an exact
  rational (num/den pair kept normalised) and `none` models IEEE NaN.
  IEEE rounding, overflow and infinities are outside the model; the
  arithmetic itself (which the claims are about) is exact.
* `HashMap<String, Lval>` frames are modelled as association lists whose
  `insert` prepends and whose `get` takes the first match; this is
  observationally equal to a map (keys unique, insertion order never
  observed by the program).
* A Rust panic (e.g. an out-of-bounds `Vec` index) is modelled as the
  distinguished outcome `Failure.panic`; `Result::Err(Lerr)` is
  `Failure.lerr`.  The evaluator is fuel-indexed (Rust recursion depth is
  bounded only by the host stack); running out of fuel is the
  distinguished outcome `Failure.nofuel`, which no theorem ever treats as
  a definite result.
-/

namespace Bebop

/-- Exact rational: numerator and (positive, once normalised) denominator.
Models the numeric payload of an `f64` that carries a finite value. -/
structure Q where
  num : Int
  den : Int
deriving DecidableEq, Repr

/-- Normalising constructor: divides out the gcd and makes the denominator
positive.  `mkQ n 0` is unreachable in the places that use it (guards have
already excluded a zero denominator); it is given the junk value 0. -/
def mkQ (n d : Int) : Q :=
  if d = 0 then ⟨0, 1⟩
  else
    let g : Int := Int.gcd n d
    if d > 0 then ⟨n / g, d / g⟩ else ⟨-(n / g), -(d / g)⟩

/-- Interpretation of `Q` as a Mathlib rational (for the specification-level
arithmetic theorems). -/
noncomputable def toRat (q : Q) : ℚ := (q.num : ℚ) / (q.den : ℚ)

/-- Embed a Mathlib rational as a (canonical) `Q`. -/
def ofRat (q : ℚ) : Q := ⟨q.num, (q.den : Int)⟩

def Q.add (a b : Q) : Q := mkQ (a.num * b.den + b.num * a.den) (a.den * b.den)

def Q.sub (a b : Q) : Q := mkQ (a.num * b.den - b.num * a.den) (a.den * b.den)

def Q.mul (a b : Q) : Q := mkQ (a.num * b.num) (a.den * b.den)

def Q.div (a b : Q) : Q := mkQ (a.num * b.den) (a.den * b.num)

def Q.neg (a : Q) : Q := ⟨-a.num, a.den⟩

/-- Truncated (toward-zero) integer part, as Rust `f64` `%` uses. -/
def Q.trunc (a : Q) : Int := Int.tdiv a.num a.den

/-- Rust `f64 %` (remainder with the sign of the dividend) on finite values:
`x - y * trunc(x / y)`. -/
def Q.fmod (a b : Q) : Q := a.sub (b.mul ⟨(a.div b).trunc, 1⟩)

/-- `q == 0.0` on a finite value. -/
def Q.isZero (a : Q) : Bool := a.num = 0

/-- The numeric payload of `Lval::Num`: `none` models NaN. -/
abbrev LNum := Option Q

/-- NaN-aware addition (`NaN` propagates, as in IEEE). -/
def LNum.add : LNum → LNum → LNum
  | some a, some b => some (a.add b)
  | _, _ => none

def LNum.sub : LNum → LNum → LNum
  | some a, some b => some (a.sub b)
  | _, _ => none

def LNum.mul : LNum → LNum → LNum
  | some a, some b => some (a.mul b)
  | _, _ => none

/-- NaN-aware division; division by a zero divisor is excluded by the guard
in `builtin_op` before this is reached. -/
def LNum.div : LNum → LNum → LNum
  | some a, some b => if b.isZero then none else some (a.div b)
  | _, _ => none

/-- Rust `x %= y` on `f64`: any NaN operand or a zero divisor yields NaN. -/
def LNum.fmod : LNum → LNum → LNum
  | some a, some b => if b.isZero then none else some (a.fmod b)
  | _, _ => none

def LNum.neg : LNum → LNum
  | some a => some a.neg
  | none => none

/-- `n == 0_f64` (false for NaN). -/
def LNum.isZero : LNum → Bool
  | some a => a.isZero
  | none => false

/-- `x == y` on `f64` (NaN equals nothing, including itself). -/
def LNum.feq : LNum → LNum → Bool
  | some a, some b => a = b
  | _, _ => false

/-- `x < y` on finite values; comparisons with NaN are false. -/
def LNum.flt : LNum → LNum → Bool
  | some a, some b => a.num * b.den < b.num * a.den
  | _, _ => false

def LNum.fgt (a b : LNum) : Bool := LNum.flt b a

def LNum.fle : LNum → LNum → Bool
  | some a, some b => a.num * b.den ≤ b.num * a.den
  | _, _ => false

def LNum.fge (a b : LNum) : Bool := LNum.fle b a

/-- The error taxonomy, after `LerrType` in src/lisp/mod.rs. -/
inductive LerrType where
  | DivZero
  | BadOp
  | BadNum
  | IncorrectParamCount
  | EmptyList
  | WrongType
  | UnboundSymbol
  | Interrupt
deriving DecidableEq, Repr

/-- Runtime error value, after `Lerr` in src/lisp/mod.rs. -/
structure Lerr where
  etype : LerrType
  details : List Char
  message : List Char
deriving DecidableEq, Repr

/-- `Lerr::new`: fills in the human-readable `details` from the kind. -/
def Lerr.new (etype : LerrType) (message : List Char) : Lerr :=
  let msg : List Char :=
    match etype with
    | LerrType.DivZero => "Cannot Divide By Zero".toList
    | LerrType.BadOp => "Invalid Operator".toList
    | LerrType.BadNum => "Invalid Operand".toList
    | LerrType.IncorrectParamCount =>
        "Incorrect Number of Params passed to function".toList
    | LerrType.WrongType => "Incorrect Data Type used".toList
    | LerrType.EmptyList => "Empty List passed to function".toList
    | LerrType.UnboundSymbol => "This Symbol has not been Defined".toList
    | LerrType.Interrupt => "User defined Error".toList
  ⟨etype, msg, message⟩

/-- The single runtime/AST value type, after `Lval` in src/lisp/mod.rs.
`Fun` keeps only the registered name (dispatch is by name, which is also
how the source defines equality and printing of builtins); `Lambda`
carries the parameter names, the body and the captured environment chain
(`Llambda`'s fields, inlined because of the nesting). -/
inductive Lval where
  | Sym : List Char → Lval
  | Num : LNum → Lval
  | Sexpr : List Lval → Lval
  | Qexpr : List Lval → Lval
  | Fun : List Char → Lval
  | Lambda : List (List Char) → List Lval → List (List (List Char × Lval)) → Lval
  | Str : List Char → Lval

/-- One binding frame (`Lookup = HashMap<String, Lval>`). -/
abbrev Lookup := List (List Char × Lval)

/-- The frame chain (`Lenv`), innermost frame first. -/
abbrev Lenv := List Lookup

/-- `Lenv::push`. -/
def Lenv.push (env : Lenv) (frame : Lookup) : Lenv := frame :: env

/-- `Lenv::pop` (dropping the returned frame, as every caller does). -/
def Lenv.pop (env : Lenv) : Lenv := env.tail

/-- `Lenv::peek`. -/
def Lenv.peek (env : Lenv) : Option Lookup := env.head?

/-- `HashMap::get` on one frame: first matching key. -/
def Lookup.get (frame : Lookup) (key : List Char) : Option Lval :=
  match frame with
  | [] => none
  | (k, v) :: rest => if k = key then some v else Lookup.get rest key

/-- `HashMap::insert` on one frame, modelled as a prepend (the new pair
shadows any older one for `Lookup.get`). -/
def Lookup.insert (frame : Lookup) (key : List Char) (v : Lval) : Lookup :=
  (key, v) :: frame

/-- `Lenv::insert`: bind in the innermost frame only (no-op on an empty
chain, as in the source where `peek_mut` returns `None`). -/
def Lenv.insert (env : Lenv) (key : List Char) (v : Lval) : Lenv :=
  match env with
  | [] => []
  | f :: rest => f.insert key v :: rest

/-- `Lenv::insert_last`: walk to the outermost frame and bind there. -/
def Lenv.insert_last (env : Lenv) (key : List Char) (v : Lval) : Lenv :=
  match env with
  | [] => []
  | [f] => [f.insert key v]
  | f :: rest => f :: Lenv.insert_last rest key v

/-- `Lenv::get`: innermost-to-outermost search. -/
def Lenv.get (env : Lenv) (key : List Char) : Option Lval :=
  match env with
  | [] => none
  | f :: rest =>
    match f.get key with
    | some v => some v
    | none => Lenv.get rest key

/-- Count of the factor `p` in `n` (bounded search used by the decimal
printer). -/
def decimalExp (q : Q) : Option Nat :=
  (List.range 200).find? (fun k => (10 ^ k * q.num) % q.den = 0)

def natDigits (n : Nat) : List Char := Nat.toDigits 10 n

/-- Decimal rendering of a nonnegative `Q` whose denominator is positive:
`m / 10^k` printed with an explicit decimal point.  For the (model-only)
values whose denominator is not of the form `2^a * 5^b` — values no `f64`
can hold — it falls back to `num/den` notation. -/
def posNumDisplay (q : Q) : List Char :=
  match decimalExp q with
  | some k =>
    let m := ((10 ^ k * q.num) / q.den).toNat
    if k = 0 then natDigits m
    else
      let ds := natDigits m
      if ds.length ≤ k then
        '0' :: '.' :: (List.replicate (k - ds.length) '0' ++ ds)
      else
        ds.take (ds.length - k) ++ '.' :: ds.drop (ds.length - k)
  | none => natDigits q.num.toNat ++ '/' :: natDigits q.den.toNat

/-- Rust's `Display` for the `f64` payload (`{}` prints `5.0` as `5`,
`0.5` as `0.5`, NaN as `NaN`; no scientific notation). -/
def numDisplay (n : LNum) : List Char :=
  match n with
  | none => "NaN".toList
  | some q => if q.num < 0 then '-' :: posNumDisplay ⟨-q.num, q.den⟩ else posNumDisplay q

def joinSpace : List (List Char) → List Char
  | [] => []
  | [x] => x
  | x :: xs => x ++ ' ' :: joinSpace xs

mutual

/-- `impl Display for Lval` (the `Debug` impl is textually identical). -/
def lvalDisplay : Lval → List Char
  | Lval.Sym s => s
  | Lval.Num n => numDisplay n
  | Lval.Sexpr s => '(' :: ' ' :: (joinSpace (lvalDisplayList s) ++ [' ', ')'])
  | Lval.Qexpr q => '[' :: ' ' :: (joinSpace (lvalDisplayList q) ++ [' ', ']'])
  | Lval.Fun name => name
  | Lval.Str s => s
  | Lval.Lambda args body _ =>
      "(\\ [".toList ++ joinSpace args ++ "] [".toList ++
        joinSpace (lvalDisplayList body) ++ "])".toList

def lvalDisplayList : List Lval → List (List Char)
  | [] => []
  | v :: vs => lvalDisplay v :: lvalDisplayList vs

end

mutual

/-- `PartialEq for Lval`: variant-wise; `Num` uses `f64` equality (NaN is
unequal to itself), `Fun` compares registered names, `Lambda` compares
parameter lists and bodies but not captured environments. -/
def lvalEq : Lval → Lval → Bool
  | Lval.Sym a, Lval.Sym b => a = b
  | Lval.Num a, Lval.Num b => LNum.feq a b
  | Lval.Sexpr a, Lval.Sexpr b => lvalEqList a b
  | Lval.Qexpr a, Lval.Qexpr b => lvalEqList a b
  | Lval.Fun a, Lval.Fun b => a = b
  | Lval.Str a, Lval.Str b => a = b
  | Lval.Lambda aargs abody _, Lval.Lambda bargs bbody _ =>
      lvalEqList abody bbody && decide (aargs = bargs)
  | _, _ => false

def lvalEqList : List Lval → List Lval → Bool
  | [], [] => true
  | a :: as_, b :: bs => lvalEq a b && lvalEqList as_ bs
  | _, _ => false

end

/-- Outcome of running a piece of the interpreter.  `lerr` is
`Result::Err(Lerr)`; `panic` models a Rust panic (out-of-bounds `Vec`
index, `Option::unwrap` on `None`); `nofuel` is the model-only outcome of
exhausting the recursion fuel. -/
inductive Failure where
  | lerr : Lerr → Failure
  | panic : Failure
  | nofuel : Failure
deriving DecidableEq, Repr

abbrev Lres := Except Failure Lval

def to_num : Lval → Option LNum
  | Lval.Num n => some n
  | _ => none

def to_sym : Lval → Option (List Char)
  | Lval.Sym s => some s
  | _ => none

def to_str : Lval → Option (List Char)
  | Lval.Str s => some s
  | _ => none

def to_qexpr : Lval → Option (List Lval)
  | Lval.Qexpr s => some s
  | _ => none

/-- `.map(f).collect::<Option<Vec<_>>>()`: all-or-nothing coercion of an
argument list. -/
def collect_map {α : Type} (f : Lval → Option α) : List Lval → Option (List α)
  | [] => some []
  | v :: vs =>
    match f v with
    | none => none
    | some a =>
      match collect_map f vs with
      | none => none
      | some rest => some (a :: rest)

/-- The while-loop of `builtin_op`: left-fold the operator over the
remaining operands, checking the divisor against zero in the `/` arm. -/
def op_fold (sym : List Char) (x : LNum) : List LNum → Lres
  | [] => Except.ok (Lval.Num x)
  | y :: ys =>
    if sym = "-".toList then op_fold sym (x.sub y) ys
    else if sym = "*".toList then op_fold sym (x.mul y) ys
    else if sym = "%".toList then op_fold sym (x.fmod y) ys
    else if sym = "/".toList then
      if y.isZero then
        Except.error (Failure.lerr (Lerr.new LerrType.DivZero
          ("You cannot divide ".toList ++ numDisplay x ++ ", or any number, by 0".toList)))
      else op_fold sym (x.div y) ys
    else op_fold sym (x.add y) ys

/-- `builtin_op` in src/lisp/builtin.rs: coerce all operands to numbers
(else `BadNum`), handle the unary cases, then fold.  On an empty operand
list the source indexes `numbers[0]`, which panics. -/
def builtin_op (sym : List Char) (operands : List Lval) : Lres :=
  match collect_map to_num operands with
  | none =>
    Except.error (Failure.lerr (Lerr.new LerrType.BadNum
      ("Function ".toList ++ sym ++ " can operate only on numbers".toList)))
  | some numbers =>
    match numbers with
    | [n] =>
      if sym = "-".toList then Except.ok (Lval.Num n.neg)
      else if sym = "!".toList then
        Except.ok (Lval.Num (if n.isZero then some ⟨1, 1⟩ else some ⟨0, 1⟩))
      else Except.ok (Lval.Num n)
    | [] => Except.error Failure.panic
    | x :: rest => op_fold sym x rest

/-- `builtin_ord`: exactly two numeric operands, comparison/boolean result
encoded as `1.0`/`0.0`. -/
def builtin_ord (sym : List Char) (operands : List Lval) : Lres :=
  if operands.length ≠ 2 then
    Except.error (Failure.lerr (Lerr.new LerrType.IncorrectParamCount
      ("Function ".toList ++ sym ++ " needed 2 args but was given ".toList ++
        natDigits operands.length)))
  else
    match collect_map to_num operands with
    | none =>
      Except.error (Failure.lerr (Lerr.new LerrType.BadNum
        ("Function ".toList ++ sym ++ " can operate only on numbers".toList)))
    | some numbers =>
      match numbers with
      | x :: y :: _ =>
        let a := !x.isZero
        let b := !y.isZero
        let r :=
          if sym = ">".toList then x.fgt y
          else if sym = "<".toList then x.flt y
          else if sym = ">=".toList then x.fge y
          else if sym = "<=".toList then x.fle y
          else if sym = "&&".toList then a && b
          else if sym = "||".toList then a || b
          else false
        if r then Except.ok (Lval.Num (some ⟨1, 1⟩)) else Except.ok (Lval.Num (some ⟨0, 1⟩))
      | _ => Except.error Failure.panic

def builtin_eq (operands : List Lval) : Lres :=
  if operands.length ≠ 2 then
    Except.error (Failure.lerr (Lerr.new LerrType.IncorrectParamCount
      ("Function eq needed 2 arg but was given ".toList ++ natDigits operands.length)))
  else
    match operands with
    | a :: b :: _ =>
      if lvalEq a b then Except.ok (Lval.Num (some ⟨1, 1⟩))
      else Except.ok (Lval.Num (some ⟨0, 1⟩))
    | _ => Except.error Failure.panic

def builtin_ne (operands : List Lval) : Lres :=
  if operands.length ≠ 2 then
    Except.error (Failure.lerr (Lerr.new LerrType.IncorrectParamCount
      ("Function eq needed 2 arg but was given ".toList ++ natDigits operands.length)))
  else
    match operands with
    | a :: b :: _ =>
      if lvalEq a b then Except.ok (Lval.Num (some ⟨0, 1⟩))
      else Except.ok (Lval.Num (some ⟨1, 1⟩))
    | _ => Except.error Failure.panic

/-- `builtin_rand`: zero arguments; the clock reading itself is outside
the model (no claim depends on the value), the arity check is the
source's. -/
def builtin_rand (operands : List Lval) : Lres :=
  if operands.length ≠ 0 then
    Except.error (Failure.lerr (Lerr.new LerrType.IncorrectParamCount
      ("Function if needed 0 arg but was given ".toList ++ natDigits operands.length)))
  else Except.ok (Lval.Num (some ⟨0, 1⟩))

/-- `builtin_err` (`die`): the source reads `operands[0]` before any arity
check, so an empty operand list panics. -/
def builtin_err (operands : List Lval) : Lres :=
  match operands with
  | [] => Except.error Failure.panic
  | arg :: _ =>
    match to_str arg with
    | none =>
      Except.error (Failure.lerr (Lerr.new LerrType.WrongType
        ("Function die needed qexpr for Else but was given ".toList ++ lvalDisplay arg)))
    | some err => Except.error (Failure.lerr (Lerr.new LerrType.Interrupt err))

def builtin_head (operands : List Lval) : Lres :=
  if operands.length ≠ 1 then
    Except.error (Failure.lerr (Lerr.new LerrType.IncorrectParamCount
      ("Function head needed 1 arg but was given ".toList ++ natDigits operands.length)))
  else
    match operands with
    | arg :: _ =>
      match arg with
      | Lval.Qexpr [] =>
        Except.error (Failure.lerr (Lerr.new LerrType.EmptyList
          "Function head was given empty list".toList))
      | Lval.Qexpr (x :: _) => Except.ok x
      | _ =>
        Except.error (Failure.lerr (Lerr.new LerrType.WrongType
          ("Function head needed Qexpr but was given ".toList ++ lvalDisplay arg)))
    | _ => Except.error Failure.panic

def builtin_tail (operands : List Lval) : Lres :=
  if operands.length ≠ 1 then
    Except.error (Failure.lerr (Lerr.new LerrType.IncorrectParamCount
      ("Function tail needed 1 arg but was given ".toList ++ natDigits operands.length)))
  else
    match operands with
    | arg :: _ =>
      match arg with
      | Lval.Qexpr [] =>
        Except.error (Failure.lerr (Lerr.new LerrType.EmptyList
          "Function tail was given empty list".toList))
      | Lval.Qexpr (_ :: xs) => Except.ok (Lval.Qexpr xs)
      | _ =>
        Except.error (Failure.lerr (Lerr.new LerrType.WrongType
          ("Function tail needed Qexpr but was given ".toList ++ lvalDisplay arg)))
    | _ => Except.error Failure.panic

def builtin_list (operands : List Lval) : Lres :=
  Except.ok (Lval.Qexpr operands)

def builtin_join (operands : List Lval) : Lres :=
  if operands.length < 2 then
    Except.error (Failure.lerr (Lerr.new LerrType.IncorrectParamCount
      ("Function join needed 2 arg but was given ".toList ++ natDigits operands.length)))
  else
    match collect_map to_qexpr operands with
    | none =>
      Except.error (Failure.lerr (Lerr.new LerrType.WrongType
        "Function join needed Qexpr but was given".toList))
    | some qexprs => Except.ok (Lval.Qexpr qexprs.flatten)

def builtin_concat (operands : List Lval) : Lres :=
  if operands.length < 1 then
    Except.error (Failure.lerr (Lerr.new LerrType.IncorrectParamCount
      ("Function concat needed >= 1 arg but was given ".toList ++ natDigits operands.length)))
  else
    match collect_map to_str operands with
    | none =>
      Except.error (Failure.lerr (Lerr.new LerrType.WrongType
        "Function concat needed Strings but was given".toList))
    | some strings => Except.ok (Lval.Str strings.flatten)

/-- The binding loop of `builtin_assign`: `def` binds in the root frame
(`insert_last`), `=` binds in the innermost frame (`insert`). -/
def assign_fold (sym : List Char) (env : Lenv) : List (List Char × Lval) → Lenv
  | [] => env
  | (arg, v) :: rest =>
    if sym = "def".toList then assign_fold sym (env.insert_last arg v) rest
    else assign_fold sym (env.insert arg v) rest

/-- `builtin_assign` in src/lisp/builtin.rs (shared body of `def` and `=`). -/
def builtin_assign (sym : List Char) (env : Lenv) (operands : List Lval) :
    Lenv × Lres :=
  if operands.length < 2 then
    (env, Except.error (Failure.lerr (Lerr.new LerrType.IncorrectParamCount
      ("Function def needed 2 args but was given ".toList ++ natDigits operands.length))))
  else
    match operands with
    | first :: values =>
      match to_qexpr first with
      | none =>
        (env, Except.error (Failure.lerr (Lerr.new LerrType.WrongType
          ("Function def needed Qexpr but was given ".toList ++ lvalDisplay first))))
      | some arglist =>
        match collect_map to_sym arglist with
        | none =>
          (env, Except.error (Failure.lerr (Lerr.new LerrType.WrongType
            "Function def needed a param list of all Symbols".toList)))
        | some args =>
          if args.length ≠ values.length then
            (env, Except.error (Failure.lerr (Lerr.new LerrType.IncorrectParamCount
              ("Function def needed to assign ".toList ++ natDigits args.length ++
                " values but was passed ".toList ++ natDigits values.length))))
          else
            (assign_fold sym env (args.zip values), Except.ok (Lval.Str []))
    | [] => (env, Except.error Failure.panic)

def builtin_def (env : Lenv) (operands : List Lval) : Lenv × Lres :=
  builtin_assign "def".toList env operands

def builtin_var (env : Lenv) (operands : List Lval) : Lenv × Lres :=
  builtin_assign "=".toList env operands

/-- `builtin_lambda` (`\`): two QExprs — all-symbol parameter list and
body — capturing the current innermost frame (`env.peek().unwrap()`,
which panics on an empty chain). -/
def builtin_lambda (env : Lenv) (operands : List Lval) : Lres :=
  if operands.length ≠ 2 then
    Except.error (Failure.lerr (Lerr.new LerrType.IncorrectParamCount
      ("Function \\ needed 2 arg but was given ".toList ++ natDigits operands.length)))
  else
    match collect_map to_qexpr operands with
    | none =>
      Except.error (Failure.lerr (Lerr.new LerrType.WrongType
        "Function \\ needed a Qexpr for arguments and a Qexpr for body".toList))
    | some results =>
      match results with
      | params :: body :: _ =>
        match collect_map to_sym params with
        | none =>
          Except.error (Failure.lerr (Lerr.new LerrType.WrongType
            "Function \\ needed a param list of all Symbols".toList))
        | some args =>
          match env.peek with
          | none => Except.error Failure.panic
          | some new_env => Except.ok (Lval.Lambda args body [new_env])
      | _ => Except.error Failure.panic

/-- `builtin_echo`: the printed (`Debug`) representation wrapped in
literal quotes. -/
def builtin_echo (operands : List Lval) : Lres :=
  if operands.length ≠ 1 then
    Except.error (Failure.lerr (Lerr.new LerrType.IncorrectParamCount
      ("Function echo needed 1 arg but was given ".toList ++ natDigits operands.length)))
  else
    match operands with
    | arg :: _ => Except.ok (Lval.Str ('"' :: lvalDisplay arg ++ ['"']))
    | _ => Except.error Failure.panic

/-- The argument-binding loop of `call` in src/lisp/eval.rs.  Consumes
supplied arguments one parameter at a time; a parameter literally named
`:` must be followed by exactly one more parameter, which is bound to a
QExpr of all remaining supplied arguments.  `given`/`total` are the
original counts, captured before the loop for the error message. -/
def bind_args (given total : Nat) (largs : List (List Char)) (lenv : Lenv) :
    List Lval → Except Lerr (List (List Char) × Lenv)
  | [] => Except.ok (largs, lenv)
  | a :: rest =>
    match largs with
    | [] =>
      Except.error (Lerr.new LerrType.IncorrectParamCount
        ("Function needed ".toList ++ natDigits total ++ " arg(s) but was given ".toList ++
          natDigits given))
    | sym :: lrest =>
      if sym = ":".toList then
        match lrest with
        | [sym2] => Except.ok ([], lenv.insert sym2 (Lval.Qexpr (a :: rest)))
        | _ =>
          Except.error (Lerr.new LerrType.IncorrectParamCount
            ": operator needs to be followed by arg".toList)
      else bind_args given total lrest (lenv.insert sym a) rest

mutual

/-- `eval` in src/lisp/eval.rs (fuel-indexed; the environment is threaded
explicitly in place of `&mut Lenv`). -/
def eval : Nat → Lenv → Lval → Lenv × Lres
  | 0, env, _ => (env, Except.error Failure.nofuel)
  | fuel + 1, env, expr =>
    match expr with
    | Lval.Sym s =>
      match env.get s with
      | some lval => (env, Except.ok lval)
      | none =>
        (env, Except.error (Failure.lerr (Lerr.new LerrType.UnboundSymbol
          ('"' :: s ++ '"' :: " has not been defined".toList))))
    | Lval.Sexpr vec => eval_sexpression fuel env vec
    | _ => (env, Except.ok expr)
termination_by structural fuel _ _ => fuel

/-- The child-evaluation pass of `eval_sexpression` (the
`map`/`collect::<Result<Vec<_>, _>>` pair): left to right, stopping at
the first error. -/
def eval_children : Nat → Lenv → List Lval → Lenv × Except Failure (List Lval)
  | _, env, [] => (env, Except.ok [])
  | 0, env, _ :: _ => (env, Except.error Failure.nofuel)
  | fuel + 1, env, x :: xs =>
    match eval fuel env x with
    | (env1, Except.ok v) =>
      match eval_children fuel env1 xs with
      | (env2, Except.ok vs) => (env2, Except.ok (v :: vs))
      | (env2, Except.error e) => (env2, Except.error e)
    | (env1, Except.error e) => (env1, Except.error e)
termination_by structural fuel _ _ => fuel

/-- What `eval_sexpression` does once every child has evaluated: dispatch
on the number of results and on whether the head is callable. -/
def apply_results : Nat → Lenv → List Lval → Lenv × Lres
  | 0, env, _ => (env, Except.error Failure.nofuel)
  | fuel + 1, env, results =>
    match results with
    | [] => (env, Except.ok (Lval.Sexpr []))
    | [op] =>
      match op with
      | Lval.Fun f => dispatch fuel env f []
      | Lval.Lambda largs body lenv => call fuel env largs body lenv []
      | _ => (env, Except.ok op)
    | op :: operands =>
      match op with
      | Lval.Fun f => dispatch fuel env f operands
      | Lval.Lambda largs body lenv => call fuel env largs body lenv operands
      | _ =>
        (env, Except.error (Failure.lerr (Lerr.new LerrType.BadOp
          (lvalDisplay op ++ " is not a valid operator".toList))))
termination_by structural fuel _ _ => fuel

/-- `eval_sexpression` in src/lisp/eval.rs. -/
def eval_sexpression : Nat → Lenv → List Lval → Lenv × Lres
  | 0, env, _ => (env, Except.error Failure.nofuel)
  | fuel + 1, env, sexpr =>
    match eval_children fuel env sexpr with
    | (env1, Except.error e) => (env1, Except.error e)
    | (env1, Except.ok results) => apply_results fuel env1 results
termination_by structural fuel _ _ => fuel

/-- `call` in src/lisp/eval.rs: bind the arguments; if parameters remain,
return the partially-applied Lambda, otherwise push the closure's frame,
evaluate the body as an SExpr and pop. -/
def call : Nat → Lenv → List (List Char) → List Lval → Lenv → List Lval → Lenv × Lres
  | 0, env, _, _, _, _ => (env, Except.error Failure.nofuel)
  | fuel + 1, env, largs, body, lenv, args =>
    match bind_args args.length largs.length largs lenv args with
    | Except.error e => (env, Except.error (Failure.lerr e))
    | Except.ok (largs1, lenv1) =>
      match largs1 with
      | [] =>
        match lenv1.peek with
        | none => (env, Except.error Failure.panic)
        | some frame =>
          match eval fuel (env.push frame) (Lval.Sexpr body) with
          | (env2, res) => (env2.pop, res)
      | _ :: _ => (env, Except.ok (Lval.Lambda largs1 body lenv1))
termination_by structural fuel _ _ _ _ _ => fuel

/-- `builtin_eval`: evaluate one argument, promoting a QExpr to an SExpr. -/
def builtin_eval : Nat → Lenv → List Lval → Lenv × Lres
  | 0, env, _ => (env, Except.error Failure.nofuel)
  | fuel + 1, env, operands =>
    if operands.length ≠ 1 then
      (env, Except.error (Failure.lerr (Lerr.new LerrType.IncorrectParamCount
        ("Function eval needed 1 arg but was given ".toList ++ natDigits operands.length))))
    else
      match operands with
      | arg :: _ =>
        match arg with
        | Lval.Qexpr q => eval fuel env (Lval.Sexpr q)
        | _ => eval fuel env arg
      | [] => (env, Except.error Failure.panic)
termination_by structural fuel _ _ => fuel

/-- `builtin_if`: Number condition, QExpr branches, chosen branch run as
an SExpr. -/
def builtin_if : Nat → Lenv → List Lval → Lenv × Lres
  | 0, env, _ => (env, Except.error Failure.nofuel)
  | fuel + 1, env, operands =>
    if operands.length ≠ 3 then
      (env, Except.error (Failure.lerr (Lerr.new LerrType.IncorrectParamCount
        ("Function if needed 3 arg but was given ".toList ++ natDigits operands.length))))
    else
      match operands with
      | c :: t :: e :: _ =>
        match to_num c with
        | none =>
          (env, Except.error (Failure.lerr (Lerr.new LerrType.WrongType
            ("Function if needed conditional but was given ".toList ++ lvalDisplay c))))
        | some conditional =>
          match to_qexpr t with
          | none =>
            (env, Except.error (Failure.lerr (Lerr.new LerrType.WrongType
              ("Function if needed qexpr for Then but was given ".toList ++ lvalDisplay t))))
          | some then1 =>
            match to_qexpr e with
            | none =>
              (env, Except.error (Failure.lerr (Lerr.new LerrType.WrongType
                ("Function if needed qexpr for Else but was given ".toList ++ lvalDisplay e))))
            | some els =>
              if conditional.isZero then eval fuel env (Lval.Sexpr els)
              else eval fuel env (Lval.Sexpr then1)
      | _ => (env, Except.error Failure.panic)
termination_by structural fuel _ _ => fuel

/-- Builtin dispatch by registered name.  The source stores a function
pointer inside `Lval::Fun`; the model stores the registration name and
dispatches here (names are unique, and only `init_env` creates `Fun`
values, so the fall-through arm is unreachable in any reachable state). -/
def dispatch : Nat → Lenv → List Char → List Lval → Lenv × Lres
  | 0, env, _, _ => (env, Except.error Failure.nofuel)
  | fuel + 1, env, name, operands =>
    if name = "eval".toList then builtin_eval fuel env operands
    else if name = "if".toList then builtin_if fuel env operands
    else if name = "def".toList then builtin_def env operands
    else if name = "=".toList then builtin_var env operands
    else if name = "\\".toList then (env, builtin_lambda env operands)
    else if name = "!".toList then (env, builtin_op "!".toList operands)
    else if name = "+".toList then (env, builtin_op "+".toList operands)
    else if name = "-".toList then (env, builtin_op "-".toList operands)
    else if name = "*".toList then (env, builtin_op "*".toList operands)
    else if name = "/".toList then (env, builtin_op "/".toList operands)
    else if name = "%".toList then (env, builtin_op "%".toList operands)
    else if name = "head".toList then (env, builtin_head operands)
    else if name = "tail".toList then (env, builtin_tail operands)
    else if name = "list".toList then (env, builtin_list operands)
    else if name = "join".toList then (env, builtin_join operands)
    else if name = "concat".toList then (env, builtin_concat operands)
    else if name = "echo".toList then (env, builtin_echo operands)
    else if name = "rand".toList then (env, builtin_rand operands)
    else if name = "die".toList then (env, builtin_err operands)
    else if name = "<".toList then (env, builtin_ord "<".toList operands)
    else if name = ">".toList then (env, builtin_ord ">".toList operands)
    else if name = ">=".toList then (env, builtin_ord ">=".toList operands)
    else if name = "<=".toList then (env, builtin_ord "<=".toList operands)
    else if name = "==".toList then (env, builtin_eq operands)
    else if name = "!=".toList then (env, builtin_ne operands)
    else if name = "&&".toList then (env, builtin_ord "&&".toList operands)
    else if name = "||".toList then (env, builtin_ord "||".toList operands)
    else (env, Except.error Failure.panic)
termination_by structural fuel _ _ _ => fuel

end

/-- `add_builtin` in src/lisp/mod.rs. -/
def add_builtin (env : Lenv) (sym : List Char) : Lenv :=
  env.insert sym (Lval.Fun sym)

/-- `init_builtins` in src/lisp/builtin.rs (registration order preserved). -/
def init_builtins (env : Lenv) : Lenv :=
  ["!", "+", "-", "*", "/", "%",
   "head", "tail", "list", "eval", "join", "concat",
   "\\", "def", "=",
   "if", "echo", "rand",
   "die",
   "<", ">", ">=", "<=", "==", "!=", "&&", "||"].foldl
    (fun e s => add_builtin e s.toList) env

/-- `init_env` in src/lisp/env.rs: one fresh frame holding the standard
library. -/
def init_env : Lenv :=
  init_builtins (Lenv.push [] [])

/-! The parser, src/lisp/parser.rs: nom combinators specialised to this
grammar, over `List Char`.  `double`'s `recognize_float` shape (optional
sign; digits with an optional fraction, or a leading-dot fraction; an
optional exponent whose missing digits make the whole exponent backtrack)
is modelled by `parseFloat`, producing an exact rational where the source
rounds to the nearest `f64`. -/

/-- nom `multispace0`'s character class. -/
def isSpaceChar (c : Char) : Bool :=
  c = ' ' || c = '\t' || c = '\n' || c = '\r'

def multispace0 (s : List Char) : List Char := s.dropWhile isSpaceChar

/-- The `one_of` character set of `parse_symbol`. -/
def isSymbolChar (c : Char) : Bool :=
  c.isAlpha || c.isDigit ||
    ['_', '+', '\\', ':', '-', '*', '/', '=', '<', '>', '|', '!', '&', '%'].contains c

/-- nom `digit1`: one or more ASCII digits. -/
def digits1 (s : List Char) : Option (List Char × List Char) :=
  let ds := s.takeWhile Char.isDigit
  if ds.isEmpty then none else some (ds, s.drop ds.length)

def digitsToNat (ds : List Char) : Nat :=
  ds.foldl (fun a c => a * 10 + (c.toNat - '0'.toNat)) 0

/-- The optional exponent of `recognize_float`: `e|E`, optional sign,
`digit1`; if the digits are missing the whole exponent is backtracked. -/
def parseExp (s : List Char) : Int × List Char :=
  match s with
  | c :: r =>
    if c = 'e' || c = 'E' then
      let (negE, r1) :=
        match r with
        | '+' :: rr => (false, rr)
        | '-' :: rr => (true, rr)
        | _ => (false, r)
      match digits1 r1 with
      | some (ds, r2) =>
        ((if negE then -(digitsToNat ds : Int) else (digitsToNat ds : Int)), r2)
      | none => (0, c :: r)
    else (0, c :: r)
  | [] => (0, [])

/-- The exact rational denoted by sign/integer-digits/fraction-digits and
a decimal exponent. -/
def floatVal (neg : Bool) (ip fp : List Char) (e : Int) : Q :=
  let m : Int := digitsToNat (ip ++ fp)
  let m := if neg then -m else m
  let k : Int := e - fp.length
  if 0 ≤ k then ⟨m * 10 ^ k.toNat, 1⟩ else mkQ m (10 ^ (-k).toNat)

/-- nom `double`: `recognize_float` followed by the numeric conversion. -/
def parseFloat (s : List Char) : Option (Q × List Char) :=
  let (neg, s1) :=
    match s with
    | '+' :: r => (false, r)
    | '-' :: r => (true, r)
    | _ => (false, s)
  match digits1 s1 with
  | some (ip, s2) =>
    let (fp, s3) :=
      match s2 with
      | '.' :: r =>
        (match digits1 r with
         | some (ds, r2) => (ds, r2)
         | none => (([] : List Char), r))
      | _ => (([] : List Char), s2)
    let (e, s4) := parseExp s3
    some (floatVal neg ip fp e, s4)
  | none =>
    match s1 with
    | '.' :: r =>
      match digits1 r with
      | some (fp, s3) =>
        let (e, s4) := parseExp s3
        some (floatVal neg [] fp e, s4)
      | none => none
    | _ => none

/-- `parse_number`. -/
def parse_number (s : List Char) : Option (Lval × List Char) :=
  let t := multispace0 s
  match parseFloat t with
  | some (q, r) => some (Lval.Num (some q), r)
  | none => none

/-- `parse_symbol`: `many1` over the symbol character set. -/
def parse_symbol (s : List Char) : Option (Lval × List Char) :=
  let t := multispace0 s
  let run := t.takeWhile isSymbolChar
  if run.isEmpty then none else some (Lval.Sym run, t.drop run.length)

/-- `parse_string`: double-quoted, no escapes, any character except `"`. -/
def parse_string (s : List Char) : Option (Lval × List Char) :=
  let t := multispace0 s
  match t with
  | '"' :: r =>
    let content := r.takeWhile (fun c => c ≠ '"')
    let r1 := multispace0 (r.drop content.length)
    match r1 with
    | '"' :: r2 => some (Lval.Str content, r2)
    | _ => none
  | _ => none

mutual

/-- `parse_expression`: the `alt` over the five productions, in source
order.  Fuel-indexed (the combinators recurse on nested brackets); every
theorem about acceptance quantifies over the fuel. -/
def parse_expression : Nat → List Char → Option (Lval × List Char)
  | 0, _ => none
  | fuel + 1, s =>
    match parse_number s with
    | some r => some r
    | none =>
      match parse_symbol s with
      | some r => some r
      | none =>
        match parse_string s with
        | some r => some r
        | none =>
          match parse_sexpression fuel s with
          | some r => some r
          | none => parse_qexpression fuel s
termination_by structural fuel _ => fuel

/-- `parse_sexpression`: `( expr* )`. -/
def parse_sexpression : Nat → List Char → Option (Lval × List Char)
  | 0, _ => none
  | fuel + 1, s =>
    match multispace0 s with
    | '(' :: r =>
      match many0_expressions fuel r with
      | some (es, r1) =>
        (match multispace0 r1 with
         | ')' :: r2 => some (Lval.Sexpr es, r2)
         | _ => none)
      | none => none
    | _ => none
termination_by structural fuel _ => fuel

/-- `parse_qexpression`: `[ expr* ]`. -/
def parse_qexpression : Nat → List Char → Option (Lval × List Char)
  | 0, _ => none
  | fuel + 1, s =>
    match multispace0 s with
    | '[' :: r =>
      match many0_expressions fuel r with
      | some (es, r1) =>
        (match multispace0 r1 with
         | ']' :: r2 => some (Lval.Qexpr es, r2)
         | _ => none)
      | none => none
    | _ => none
termination_by structural fuel _ => fuel

/-- nom `many0(parse_expression)`.  nom rejects an inner match that
consumes nothing (its infinite-loop guard); that guard is the `none` arm
here and is unreachable, since a successful `parse_expression` always
consumes at least one character. -/
def many0_expressions : Nat → List Char → Option (List Lval × List Char)
  | 0, _ => none
  | fuel + 1, s =>
    match parse_expression fuel s with
    | none => some ([], s)
    | some (v, r) =>
      if r.length < s.length then
        match many0_expressions fuel r with
        | some (vs, r1) => some (v :: vs, r1)
        | none => none
      else none
termination_by structural fuel _ => fuel

end

/-- `root`: whole-input `ws many0(expr) ws` wrapped in one `Sexpr`.
The fuel dominates the recursion on any input of length `n`: every
descent into a bracketed expression costs three calls (`parse_expression`
to `parse_sexpression`/`parse_qexpression` to `many0_expressions`) and
consumes the bracket character, and every step to the next list element
costs at most three calls and consumes at least one character (a
successful element parse must consume input, which `many0_expressions`
checks), so `3 * n + 3` fuel is never exhausted before the parse
decides. -/
def root (s : List Char) : Option Lval :=
  match many0_expressions (3 * s.length + 3) (multispace0 s) with
  | none => none
  | some (es, r) =>
    if (multispace0 r).isEmpty then some (Lval.Sexpr es) else none

mutual

/-- Invariant of every value the parser can produce: symbols are
nonempty runs of symbol characters on which `double` fails (the parser
tried it first), and no `Fun`/`Lambda` node occurs (the parser cannot
build one). -/
def goodVal : Lval → Bool
  | Lval.Sym s => !s.isEmpty && s.all isSymbolChar && (parseFloat s).isNone
  | Lval.Num _ => true
  | Lval.Str _ => true
  | Lval.Sexpr es => goodList es
  | Lval.Qexpr es => goodList es
  | Lval.Fun _ => false
  | Lval.Lambda _ _ _ => false

def goodList : List Lval → Bool
  | [] => true
  | v :: vs => goodVal v && goodList vs

end

mutual

/-- No `Num` and no `Str` node: the fragment on which the printed form
is re-parseable verbatim (a printed `Str` loses its quotes, and float
re-reading is outside this model). -/
def numStrFree : Lval → Bool
  | Lval.Sym _ => true
  | Lval.Num _ => false
  | Lval.Str _ => false
  | Lval.Sexpr es => numStrFreeList es
  | Lval.Qexpr es => numStrFreeList es
  | Lval.Fun _ => true
  | Lval.Lambda _ _ _ => true

def numStrFreeList : List Lval → Bool
  | [] => true
  | v :: vs => numStrFree v && numStrFreeList vs

end

mutual

/-- Bracket-nesting depth, used to budget the parsing fuel. -/
def exprDepth : Lval → Nat
  | Lval.Sym _ => 0
  | Lval.Num _ => 0
  | Lval.Str _ => 0
  | Lval.Sexpr es => exprDepthList es + 1
  | Lval.Qexpr es => exprDepthList es + 1
  | Lval.Fun _ => 0
  | Lval.Lambda _ _ _ => 0

def exprDepthList : List Lval → Nat
  | [] => 0
  | v :: vs => max (exprDepth v) (exprDepthList vs)

end

/-- The characters that may legally follow a printed expression inside a
re-parse: end of input, a space, or a closing delimiter. -/
def stopOk : List Char → Prop
  | [] => True
  | c :: _ => c = ' ' ∨ c = ')' ∨ c = ']'

/-- The head of the list is not an ASCII digit (used to characterise
where `recognize_float` fails). -/
def headNotDigit : List Char → Prop
  | [] => True
  | d :: _ => d.isDigit = false

/-- After the optional sign, no float can start here: no leading digit,
and a leading `.` is not followed by a digit. -/
def noFloatShape : List Char → Prop
  | [] => True
  | d :: r => d.isDigit = false ∧ (d = '.' → headNotDigit r)

/-- Exactly when `parseFloat` fails (proved as `parseFloat_none_iff`). -/
def floatFail : List Char → Prop
  | [] => True
  | c :: s1 => if c = '+' ∨ c = '-' then noFloatShape s1 else noFloatShape (c :: s1)

/-- The error kind of a result, when it is a typed runtime error. -/
def errKind : Lres → Option LerrType
  | Except.error (Failure.lerr e) => some e.etype
  | _ => none

/-- The values `eval_sexpression` treats as callable. -/
def callable : Lval → Bool
  | Lval.Fun _ => true
  | Lval.Lambda _ _ _ => true
  | _ => false

mutual

/-- Fuel sufficient for `parse_expression` to re-read a printed value
(each bracket level and each list element costs one unit). -/
def parseCost : Lval → Nat
  | Lval.Sexpr es => 2 + parseCostList es
  | Lval.Qexpr es => 2 + parseCostList es
  | _ => 1

def parseCostList : List Lval → Nat
  | [] => 1
  | v :: vs => 1 + parseCost v + parseCostList vs

end

/-! ### Supporting lemmas: `Q` versus `ℚ` -/

theorem ediv_mul_comm {g n d : Int} (hg : g ≠ 0) (hn : g ∣ n) (hd : g ∣ d) :
    n / g * d = n * (d / g) := by
  obtain ⟨a, ha⟩ := hn
  obtain ⟨b, hb⟩ := hd
  subst ha
  subst hb
  rw [Int.mul_ediv_cancel_left _ hg, Int.mul_ediv_cancel_left _ hg]
  ring

theorem gcd_cast_ne_zero {n d : Int} (hd : d ≠ 0) : (Int.gcd n d : Int) ≠ 0 := by
  intro h
  rw [Int.natCast_eq_zero, Int.gcd_eq_zero_iff] at h
  exact hd h.2

theorem ediv_gcd_ne_zero {n d : Int} (hd : d ≠ 0) :
    d / (Int.gcd n d : Int) ≠ 0 := by
  intro h0
  apply hd
  calc d = (Int.gcd n d : Int) * (d / (Int.gcd n d : Int)) :=
        (Int.mul_ediv_cancel' Int.gcd_dvd_right).symm
    _ = 0 := by rw [h0, mul_zero]

theorem mkQ_den_ne_zero (n d : Int) (hd : d ≠ 0) : (mkQ n d).den ≠ 0 := by
  unfold mkQ
  rw [if_neg hd]
  by_cases hpos : d > 0
  · simpa [hpos] using ediv_gcd_ne_zero (n := n) hd
  · simpa [hpos] using ediv_gcd_ne_zero (n := n) hd

theorem toRat_mkQ (n d : Int) (hd : d ≠ 0) : toRat (mkQ n d) = (n : ℚ) / (d : ℚ) := by
  unfold mkQ
  rw [if_neg hd]
  have hg0 : (Int.gcd n d : Int) ≠ 0 := gcd_cast_ne_zero hd
  have hden : d / (Int.gcd n d : Int) ≠ 0 := ediv_gcd_ne_zero hd
  have key : ((n / (Int.gcd n d : Int) : Int) : ℚ) / ((d / (Int.gcd n d : Int) : Int) : ℚ) =
      (n : ℚ) / (d : ℚ) := by
    rw [div_eq_div_iff (by exact_mod_cast hden) (by exact_mod_cast hd)]
    exact_mod_cast ediv_mul_comm hg0 Int.gcd_dvd_left Int.gcd_dvd_right
  by_cases hpos : d > 0
  · simpa [hpos, toRat] using key
  · simp only [hpos, if_false, toRat]
    push_cast
    rw [neg_div_neg_eq]
    exact_mod_cast key

theorem toRat_ofRat (x : ℚ) : toRat (ofRat x) = x := by
  simp only [toRat, ofRat]
  exact Rat.num_div_den x

theorem ofRat_den_ne_zero (x : ℚ) : (ofRat x).den ≠ 0 := by
  simp only [ofRat, ne_eq, Int.natCast_eq_zero]
  exact x.den_nz

theorem Q.add_den_ne_zero (a b : Q) (ha : a.den ≠ 0) (hb : b.den ≠ 0) :
    (a.add b).den ≠ 0 :=
  mkQ_den_ne_zero _ _ (mul_ne_zero ha hb)

theorem toRat_Q_add (a b : Q) (ha : a.den ≠ 0) (hb : b.den ≠ 0) :
    toRat (a.add b) = toRat a + toRat b := by
  unfold Q.add
  rw [toRat_mkQ _ _ (mul_ne_zero ha hb)]
  unfold toRat
  have ha' : (a.den : ℚ) ≠ 0 := by exact_mod_cast ha
  have hb' : (b.den : ℚ) ≠ 0 := by exact_mod_cast hb
  push_cast
  field_simp
  try ring

theorem toRat_Q_neg (a : Q) : toRat a.neg = -toRat a := by
  unfold toRat Q.neg
  push_cast
  ring

/-! ### Supporting lemmas: `builtin_op` plumbing -/

theorem collect_to_num_none {operands : List Lval} (h : ∃ v ∈ operands, to_num v = none) :
    collect_map to_num operands = none := by
  induction operands with
  | nil => simp at h
  | cons x xs ih =>
    rcases h with ⟨v, hv, hnum⟩
    rcases List.mem_cons.mp hv with rfl | hmem
    · simp [collect_map, hnum]
    · cases hx : to_num x <;> simp [collect_map, hx, ih ⟨v, hmem, hnum⟩]

theorem collect_to_num_map (rest : List ℚ) :
    collect_map to_num (rest.map (fun r => Lval.Num (some (ofRat r)))) =
      some (rest.map (fun r => some (ofRat r))) := by
  induction rest with
  | nil => rfl
  | cons r rs ih => simp [collect_map, ih, to_num]

theorem op_fold_plus_acc (acc : Q) (hacc : acc.den ≠ 0) (rest : List ℚ) :
    ∃ z : Q, op_fold "+".toList (some acc) (rest.map (fun r => some (ofRat r))) =
        Except.ok (Lval.Num (some z)) ∧ toRat z = toRat acc + rest.sum ∧ z.den ≠ 0 := by
  induction rest generalizing acc with
  | nil => exact ⟨acc, rfl, by simp, hacc⟩
  | cons r rs ih =>
    have step : op_fold "+".toList (some acc) ((some (ofRat r)) ::
        rs.map (fun r => some (ofRat r))) =
        op_fold "+".toList (LNum.add (some acc) (some (ofRat r)))
          (rs.map (fun r => some (ofRat r))) := rfl
    have hden : (acc.add (ofRat r)).den ≠ 0 :=
      Q.add_den_ne_zero _ _ hacc (ofRat_den_ne_zero r)
    obtain ⟨z, hz, hzrat, hzden⟩ := ih (acc.add (ofRat r)) hden
    refine ⟨z, ?_, ?_, hzden⟩
    · rw [List.map_cons, step]
      exact hz
    · rw [hzrat, toRat_Q_add _ _ hacc (ofRat_den_ne_zero r), toRat_ofRat]
      simp [List.sum_cons]
      ring

/-! ### Claim C2 -/

/-- Claim C2: the arithmetic builtins coerce every argument to Number or
fail with `BadNum`; with two or more arguments they left-fold, so `(+ x y)`
returns the Number `x + y` for every pair (and in general `+` sums the
whole operand list); a unary `-` negates, a unary `+` is the identity; and
`/` with a right operand exactly equal to `0` fails with `DivZero`
regardless of the left operand. -/
theorem arith_builtin_op_spec :
    (∀ (sym : List Char) (operands : List Lval),
        (∃ v ∈ operands, to_num v = none) →
        errKind (builtin_op sym operands) = some LerrType.BadNum)
  ∧ (∀ x y : ℚ, ∃ z : Q,
        builtin_op "+".toList [Lval.Num (some (ofRat x)), Lval.Num (some (ofRat y))] =
          Except.ok (Lval.Num (some z)) ∧ toRat z = x + y)
  ∧ (∀ (x y : ℚ) (rest : List ℚ), ∃ z : Q,
        builtin_op "+".toList
          (Lval.Num (some (ofRat x)) :: Lval.Num (some (ofRat y)) ::
            rest.map (fun r => Lval.Num (some (ofRat r)))) =
          Except.ok (Lval.Num (some z)) ∧ toRat z = x + y + rest.sum)
  ∧ (∀ x : ℚ, ∃ z : Q,
        builtin_op "-".toList [Lval.Num (some (ofRat x))] =
          Except.ok (Lval.Num (some z)) ∧ toRat z = -x)
  ∧ (∀ x : ℚ,
        builtin_op "+".toList [Lval.Num (some (ofRat x))] =
          Except.ok (Lval.Num (some (ofRat x))))
  ∧ (∀ (x : LNum) (y : Q), y.isZero = true →
        errKind (builtin_op "/".toList [Lval.Num x, Lval.Num (some y)]) =
          some LerrType.DivZero) := by
  refine ⟨?_, ?_, ?_, ?_, ?_, ?_⟩
  · intro sym operands h
    unfold builtin_op
    rw [collect_to_num_none h]
    rfl
  · intro x y
    obtain ⟨z, hz, hzrat, _⟩ := op_fold_plus_acc ((ofRat x).add (ofRat y))
      (Q.add_den_ne_zero _ _ (ofRat_den_ne_zero x) (ofRat_den_ne_zero y)) []
    refine ⟨z, hz, ?_⟩
    rw [hzrat, toRat_Q_add _ _ (ofRat_den_ne_zero x) (ofRat_den_ne_zero y),
      toRat_ofRat, toRat_ofRat]
    simp
  · intro x y rest
    obtain ⟨z, hz, hzrat, _⟩ := op_fold_plus_acc ((ofRat x).add (ofRat y))
      (Q.add_den_ne_zero _ _ (ofRat_den_ne_zero x) (ofRat_den_ne_zero y)) rest
    have start : builtin_op "+".toList
        (Lval.Num (some (ofRat x)) :: Lval.Num (some (ofRat y)) ::
          rest.map (fun r => Lval.Num (some (ofRat r)))) =
        op_fold "+".toList (LNum.add (some (ofRat x)) (some (ofRat y)))
          (rest.map (fun r => some (ofRat r))) := by
      unfold builtin_op
      rw [show collect_map to_num (Lval.Num (some (ofRat x)) :: Lval.Num (some (ofRat y)) ::
          rest.map (fun r => Lval.Num (some (ofRat r)))) =
          some (some (ofRat x) :: some (ofRat y) :: rest.map (fun r => some (ofRat r)))
          from by simp [collect_map, collect_to_num_map, to_num]]
      try rfl
    refine ⟨z, ?_, ?_⟩
    · rw [start]
      exact hz
    · rw [hzrat, toRat_Q_add _ _ (ofRat_den_ne_zero x) (ofRat_den_ne_zero y),
        toRat_ofRat, toRat_ofRat]
  · intro x
    refine ⟨(ofRat x).neg, rfl, ?_⟩
    rw [toRat_Q_neg, toRat_ofRat]
  · intro x
    rfl
  · intro x y hy
    have step : builtin_op "/".toList [Lval.Num x, Lval.Num (some y)] =
        op_fold "/".toList x [some y] := rfl
    have fold : op_fold "/".toList x [some y] =
        if LNum.isZero (some y) then
          Except.error (Failure.lerr (Lerr.new LerrType.DivZero
            ("You cannot divide ".toList ++ numDisplay x ++ ", or any number, by 0".toList)))
        else op_fold "/".toList (x.div (some y)) [] := rfl
    rw [step, fold]
    simp [LNum.isZero, hy, errKind, Lerr.new]

/-- Witness for C2 at concrete inputs. -/
theorem arith_builtin_op_spec_witness :
    errKind (builtin_op "+".toList [Lval.Str ['a']]) = some LerrType.BadNum ∧
    (∃ z : Q, builtin_op "+".toList [Lval.Num (some (ofRat 2)), Lval.Num (some (ofRat 3))] =
      Except.ok (Lval.Num (some z)) ∧ toRat z = 2 + 3) ∧
    errKind (builtin_op "/".toList [Lval.Num (some ⟨7, 1⟩), Lval.Num (some ⟨0, 1⟩)]) =
      some LerrType.DivZero := by
  refine ⟨?_, ?_, ?_⟩
  · exact arith_builtin_op_spec.1 "+".toList [Lval.Str ['a']] ⟨Lval.Str ['a'], by simp, rfl⟩
  · exact arith_builtin_op_spec.2.1 2 3
  · exact arith_builtin_op_spec.2.2.2.2.2 (some ⟨7, 1⟩) ⟨0, 1⟩ rfl

/-! ### Claim C3 -/

/-- Counterexample to Claim C3: `(% 5 0)` returns the Number NaN — the
source's `%` arm has no zero-divisor guard — rather than failing with
`DivZero`. -/
theorem mod_zero_counterexample :
    builtin_op "%".toList [Lval.Num (some ⟨5, 1⟩), Lval.Num (some ⟨0, 1⟩)] =
      Except.ok (Lval.Num none) ∧
    errKind (builtin_op "%".toList [Lval.Num (some ⟨5, 1⟩), Lval.Num (some ⟨0, 1⟩)]) ≠
      some LerrType.DivZero := by
  exact ⟨rfl, by decide⟩

/-- Claim C3 as amended: `%` applied to any Number and a right operand
exactly equal to `0` returns the Number NaN (Rust `x % 0.0`), with no
error of any kind. -/
theorem mod_zero_amended :
    ∀ (x : LNum) (y : Q), y.isZero = true →
      builtin_op "%".toList [Lval.Num x, Lval.Num (some y)] =
        Except.ok (Lval.Num none) := by
  intro x y hy
  have step : builtin_op "%".toList [Lval.Num x, Lval.Num (some y)] =
      op_fold "%".toList (LNum.fmod x (some y)) [] := rfl
  rw [step]
  cases x <;> simp [op_fold, LNum.fmod, hy]

/-- Witness for the amended C3 at a concrete input. -/
theorem mod_zero_amended_witness :
    builtin_op "%".toList [Lval.Num (some ⟨7, 2⟩), Lval.Num (some ⟨0, 1⟩)] =
      Except.ok (Lval.Num none) :=
  mod_zero_amended (some ⟨7, 2⟩) ⟨0, 1⟩ rfl

/-! ### Claim C9 -/

/-- Claim C9 is contradicted by the code: `die` applied to zero arguments
reads `operands[0]` before any arity check and panics, and the arithmetic
builtins applied to zero arguments panic at `numbers[0]`; neither is a
typed error. -/
theorem die_empty_args_panics :
    builtin_err [] = Except.error Failure.panic ∧
    builtin_op "+".toList [] = Except.error Failure.panic :=
  ⟨rfl, rfl⟩

/-! ### Claim C4 -/

/-- Claim C4: `head` and `tail` require exactly one QExpr argument (wrong
arity is `IncorrectParamCount`, a non-QExpr is `WrongType`), fail with
`EmptyList` on an empty QExpr, and on a non-empty QExpr `head` returns the
first element, `tail` the rest, and `join (list (head q)) (tail q)`
rebuilds `q`. -/
theorem head_tail_join_spec :
    (∀ operands : List Lval, operands.length ≠ 1 →
        errKind (builtin_head operands) = some LerrType.IncorrectParamCount ∧
        errKind (builtin_tail operands) = some LerrType.IncorrectParamCount)
  ∧ errKind (builtin_head [Lval.Qexpr []]) = some LerrType.EmptyList
  ∧ errKind (builtin_tail [Lval.Qexpr []]) = some LerrType.EmptyList
  ∧ (∀ v : Lval, (∀ q, v ≠ Lval.Qexpr q) →
        errKind (builtin_head [v]) = some LerrType.WrongType ∧
        errKind (builtin_tail [v]) = some LerrType.WrongType)
  ∧ (∀ (q : Lval) (qs : List Lval),
        builtin_head [Lval.Qexpr (q :: qs)] = Except.ok q ∧
        builtin_tail [Lval.Qexpr (q :: qs)] = Except.ok (Lval.Qexpr qs) ∧
        builtin_list [q] = Except.ok (Lval.Qexpr [q]) ∧
        builtin_join [Lval.Qexpr [q], Lval.Qexpr qs] = Except.ok (Lval.Qexpr (q :: qs))) := by
  refine ⟨?_, rfl, rfl, ?_, ?_⟩
  · intro operands h
    constructor <;> simp [builtin_head, builtin_tail, h, errKind, Lerr.new]
  · intro v hv
    constructor <;> cases v <;> first
      | rfl
      | exact absurd rfl (hv _)
  · intro q qs
    refine ⟨rfl, rfl, rfl, ?_⟩
    simp [builtin_join, collect_map, to_qexpr]

/-- Witness for C4 at concrete inputs. -/
theorem head_tail_join_spec_witness :
    errKind (builtin_head []) = some LerrType.IncorrectParamCount ∧
    errKind (builtin_head [Lval.Str ['a']]) = some LerrType.WrongType ∧
    builtin_head [Lval.Qexpr [Lval.Num (some ⟨1, 1⟩), Lval.Num (some ⟨2, 1⟩)]] =
      Except.ok (Lval.Num (some ⟨1, 1⟩)) ∧
    builtin_join [Lval.Qexpr [Lval.Num (some ⟨1, 1⟩)], Lval.Qexpr [Lval.Num (some ⟨2, 1⟩)]] =
      Except.ok (Lval.Qexpr [Lval.Num (some ⟨1, 1⟩), Lval.Num (some ⟨2, 1⟩)]) :=
  ⟨(head_tail_join_spec.1 [] (by decide)).1,
   (head_tail_join_spec.2.2.2.1 (Lval.Str ['a']) (fun q h => by cases h)).1,
   (head_tail_join_spec.2.2.2.2 (Lval.Num (some ⟨1, 1⟩)) [Lval.Num (some ⟨2, 1⟩)]).1,
   (head_tail_join_spec.2.2.2.2 (Lval.Num (some ⟨1, 1⟩)) [Lval.Num (some ⟨2, 1⟩)]).2.2.2⟩

/-! ### Claim C5 -/

theorem insert_last_cons (f : Lookup) (env : Lenv) (henv : env ≠ []) (k : List Char)
    (v : Lval) : Lenv.insert_last (f :: env) k v = f :: Lenv.insert_last env k v := by
  cases env with
  | nil => exact absurd rfl henv
  | cons g rest => rfl

theorem get_insert_last (env : Lenv) (henv : env ≠ []) (s : List Char) (v : Lval)
    (hfree : ∀ fr ∈ env.dropLast, Lookup.get fr s = none) :
    (Lenv.insert_last env s v).get s = some v := by
  induction env with
  | nil => exact absurd rfl henv
  | cons f rest ih =>
    cases rest with
    | nil => simp [Lenv.insert_last, Lenv.get, Lookup.insert, Lookup.get]
    | cons g rest2 =>
      have hf : Lookup.get f s = none := hfree f (by simp [List.dropLast])
      rw [insert_last_cons f (g :: rest2) (by simp) s v]
      show Lenv.get (f :: Lenv.insert_last (g :: rest2) s v) s = some v
      rw [Lenv.get, hf]
      exact ih (by simp) (fun fr hfr => hfree fr (by simp [List.dropLast] at hfr ⊢; right; exact hfr))

theorem collect_to_sym_map (syms : List (List Char)) :
    collect_map to_sym (syms.map Lval.Sym) = some syms := by
  induction syms with
  | nil => rfl
  | cons s ss ih => simp [collect_map, to_sym, ih]

/-- Claim C5: `def` binds in the outermost (root) frame, so the binding
survives popping the scope it was made in; `=` binds in the innermost
frame only, so popping the scope restores the environment exactly; and a
symbol-count/value-count mismatch fails with `IncorrectParamCount` for
both. -/
theorem def_global_var_local :
    (∀ (env : Lenv) (f : Lookup) (s : List Char) (v : Lval),
        env ≠ [] → (∀ fr ∈ env.dropLast, Lookup.get fr s = none) →
        (builtin_def (Lenv.push env f) [Lval.Qexpr [Lval.Sym s], v]).2 =
          Except.ok (Lval.Str []) ∧
        (Lenv.pop (builtin_def (Lenv.push env f) [Lval.Qexpr [Lval.Sym s], v]).1).get s =
          some v)
  ∧ (∀ (env : Lenv) (f : Lookup) (s : List Char) (v : Lval),
        (builtin_var (Lenv.push env f) [Lval.Qexpr [Lval.Sym s], v]).2 =
          Except.ok (Lval.Str []) ∧
        Lenv.pop (builtin_var (Lenv.push env f) [Lval.Qexpr [Lval.Sym s], v]).1 = env)
  ∧ (∀ (env : Lenv) (syms : List (List Char)) (vals : List Lval),
        syms.length ≠ vals.length →
        errKind (builtin_def env (Lval.Qexpr (syms.map Lval.Sym) :: vals)).2 =
          some LerrType.IncorrectParamCount ∧
        errKind (builtin_var env (Lval.Qexpr (syms.map Lval.Sym) :: vals)).2 =
          some LerrType.IncorrectParamCount) := by
  refine ⟨?_, ?_, ?_⟩
  · intro env f s v henv hfree
    refine ⟨rfl, ?_⟩
    show (Lenv.pop (Lenv.insert_last (Lenv.push env f) s v)).get s = some v
    rw [show Lenv.push env f = f :: env from rfl, insert_last_cons f env henv s v]
    show (Lenv.insert_last env s v).get s = some v
    exact get_insert_last env henv s v hfree
  · intro env f s v
    exact ⟨rfl, rfl⟩
  · intro env syms vals h
    cases vals with
    | nil => exact ⟨rfl, rfl⟩
    | cons w ws =>
      have hlen : ¬((Lval.Qexpr (syms.map Lval.Sym) :: w :: ws).length < 2) := by
        simp
      constructor <;>
        · show errKind (builtin_assign _ env (Lval.Qexpr (syms.map Lval.Sym) :: w :: ws)).2 = _
          unfold builtin_assign
          rw [if_neg hlen]
          simp only [to_qexpr, collect_to_sym_map]
          rw [if_pos (by simpa using h)]
          rfl

/-- Witness for C5 at concrete inputs. -/
theorem def_global_var_local_witness :
    (builtin_def (Lenv.push [[]] []) [Lval.Qexpr [Lval.Sym ['b']], Lval.Num (some ⟨2, 1⟩)]).2 =
      Except.ok (Lval.Str []) ∧
    (Lenv.pop (builtin_def (Lenv.push [[]] [])
        [Lval.Qexpr [Lval.Sym ['b']], Lval.Num (some ⟨2, 1⟩)]).1).get ['b'] =
      some (Lval.Num (some ⟨2, 1⟩)) ∧
    Lenv.pop (builtin_var (Lenv.push [[]] [])
        [Lval.Qexpr [Lval.Sym ['c']], Lval.Num (some ⟨3, 1⟩)]).1 = [[]] ∧
    errKind (builtin_def [[]] [Lval.Qexpr [Lval.Sym ['a'], Lval.Sym ['b']],
        Lval.Num (some ⟨1, 1⟩)]).2 = some LerrType.IncorrectParamCount := by
  have h1 := def_global_var_local.1 [[]] [] ['b'] (Lval.Num (some ⟨2, 1⟩))
    (by simp) (by simp [List.dropLast])
  have h2 := def_global_var_local.2.1 [[]] [] ['c'] (Lval.Num (some ⟨3, 1⟩))
  have h3 := (def_global_var_local.2.2 [[]] [['a'], ['b']] [Lval.Num (some ⟨1, 1⟩)]
    (by decide)).1
  exact ⟨h1.1, h1.2, h2.2, h3⟩

/-! ### Claim C10 -/

/-- Claim C10: on success both `def` and `=` return the empty `Str` value
(not the empty SExpr unit). -/
theorem assign_returns_empty_str :
    (∀ (env : Lenv) (syms : List (List Char)) (vals : List Lval),
        syms.length = vals.length → vals ≠ [] →
        (builtin_def env (Lval.Qexpr (syms.map Lval.Sym) :: vals)).2 =
          Except.ok (Lval.Str []) ∧
        (builtin_var env (Lval.Qexpr (syms.map Lval.Sym) :: vals)).2 =
          Except.ok (Lval.Str []))
  ∧ Lval.Str [] ≠ Lval.Sexpr [] := by
  constructor
  · intro env syms vals hlen hne
    cases vals with
    | nil => exact absurd rfl hne
    | cons w ws =>
      have hlt : ¬((Lval.Qexpr (syms.map Lval.Sym) :: w :: ws).length < 2) := by
        simp
      constructor <;>
        · show (builtin_assign _ env (Lval.Qexpr (syms.map Lval.Sym) :: w :: ws)).2 = _
          unfold builtin_assign
          rw [if_neg hlt]
          simp only [to_qexpr, collect_to_sym_map]
          rw [if_neg (by simpa using hlen)]
  · intro h
    cases h

/-- Witness for C10 at concrete inputs. -/
theorem assign_returns_empty_str_witness :
    (builtin_def [[]] [Lval.Qexpr [Lval.Sym ['a']], Lval.Num (some ⟨1, 1⟩)]).2 =
      Except.ok (Lval.Str []) ∧
    (builtin_var [[]] [Lval.Qexpr [Lval.Sym ['a']], Lval.Num (some ⟨1, 1⟩)]).2 =
      Except.ok (Lval.Str []) :=
  assign_returns_empty_str.1 [[]] [['a']] [Lval.Num (some ⟨1, 1⟩)] (by decide) (by simp)

/-! ### Claim C6 -/

/-- Claim C6: once every child of an SExpr has evaluated, the result
count decides everything — zero results give the empty SExpr; one result
is invoked with no arguments if callable and returned unchanged
otherwise; two or more results apply the (necessarily callable) head to
the rest, a non-callable head being a `BadOp` error. -/
theorem sexpr_result_dispatch :
    (∀ (fuel : Nat) (env : Lenv) (sexpr : List Lval) (env1 : Lenv),
        eval_children (fuel + 1) env sexpr = (env1, Except.ok []) →
        eval_sexpression (fuel + 2) env sexpr = (env1, Except.ok (Lval.Sexpr [])))
  ∧ (∀ (fuel : Nat) (env : Lenv) (sexpr : List Lval) (env1 : Lenv) (v : Lval),
        eval_children (fuel + 1) env sexpr = (env1, Except.ok [v]) → callable v = false →
        eval_sexpression (fuel + 2) env sexpr = (env1, Except.ok v))
  ∧ (∀ (fuel : Nat) (env : Lenv) (sexpr : List Lval) (env1 : Lenv) (name : List Char),
        eval_children (fuel + 1) env sexpr = (env1, Except.ok [Lval.Fun name]) →
        eval_sexpression (fuel + 2) env sexpr = dispatch fuel env1 name [])
  ∧ (∀ (fuel : Nat) (env : Lenv) (sexpr : List Lval) (env1 : Lenv) largs body lenv,
        eval_children (fuel + 1) env sexpr = (env1, Except.ok [Lval.Lambda largs body lenv]) →
        eval_sexpression (fuel + 2) env sexpr = call fuel env1 largs body lenv [])
  ∧ (∀ (fuel : Nat) (env : Lenv) (sexpr : List Lval) (env1 : Lenv) (name : List Char)
        (w : Lval) (rest : List Lval),
        eval_children (fuel + 1) env sexpr = (env1, Except.ok (Lval.Fun name :: w :: rest)) →
        eval_sexpression (fuel + 2) env sexpr = dispatch fuel env1 name (w :: rest))
  ∧ (∀ (fuel : Nat) (env : Lenv) (sexpr : List Lval) (env1 : Lenv) largs body lenv
        (w : Lval) (rest : List Lval),
        eval_children (fuel + 1) env sexpr =
          (env1, Except.ok (Lval.Lambda largs body lenv :: w :: rest)) →
        eval_sexpression (fuel + 2) env sexpr = call fuel env1 largs body lenv (w :: rest))
  ∧ (∀ (fuel : Nat) (env : Lenv) (sexpr : List Lval) (env1 : Lenv) (v w : Lval)
        (rest : List Lval),
        eval_children (fuel + 1) env sexpr = (env1, Except.ok (v :: w :: rest)) →
        callable v = false →
        errKind (eval_sexpression (fuel + 2) env sexpr).2 = some LerrType.BadOp) := by
  refine ⟨?_, ?_, ?_, ?_, ?_, ?_, ?_⟩
  · intro fuel env sexpr env1 h
    show (match eval_children (fuel + 1) env sexpr with
      | (env2, Except.error e) => (env2, Except.error e)
      | (env2, Except.ok results) => apply_results (fuel + 1) env2 results) = _
    rw [h]
    rfl
  · intro fuel env sexpr env1 v h hv
    show (match eval_children (fuel + 1) env sexpr with
      | (env2, Except.error e) => (env2, Except.error e)
      | (env2, Except.ok results) => apply_results (fuel + 1) env2 results) = _
    rw [h]
    cases v <;> simp [callable] at hv ⊢ <;> rfl
  · intro fuel env sexpr env1 name h
    show (match eval_children (fuel + 1) env sexpr with
      | (env2, Except.error e) => (env2, Except.error e)
      | (env2, Except.ok results) => apply_results (fuel + 1) env2 results) = _
    rw [h]
    rfl
  · intro fuel env sexpr env1 largs body lenv h
    show (match eval_children (fuel + 1) env sexpr with
      | (env2, Except.error e) => (env2, Except.error e)
      | (env2, Except.ok results) => apply_results (fuel + 1) env2 results) = _
    rw [h]
    rfl
  · intro fuel env sexpr env1 name w rest h
    show (match eval_children (fuel + 1) env sexpr with
      | (env2, Except.error e) => (env2, Except.error e)
      | (env2, Except.ok results) => apply_results (fuel + 1) env2 results) = _
    rw [h]
    rfl
  · intro fuel env sexpr env1 largs body lenv w rest h
    show (match eval_children (fuel + 1) env sexpr with
      | (env2, Except.error e) => (env2, Except.error e)
      | (env2, Except.ok results) => apply_results (fuel + 1) env2 results) = _
    rw [h]
    rfl
  · intro fuel env sexpr env1 v w rest h hv
    have expand : eval_sexpression (fuel + 2) env sexpr =
        apply_results (fuel + 1) env1 (v :: w :: rest) := by
      show (match eval_children (fuel + 1) env sexpr with
        | (env2, Except.error e) => (env2, Except.error e)
        | (env2, Except.ok results) => apply_results (fuel + 1) env2 results) = _
      rw [h]
    rw [expand]
    cases v <;> simp [callable] at hv ⊢ <;> rfl

/-- Witness for C6 at concrete inputs. -/
theorem sexpr_result_dispatch_witness :
    eval_sexpression 7 init_env [Lval.Num (some ⟨7, 1⟩)] =
      (init_env, Except.ok (Lval.Num (some ⟨7, 1⟩))) ∧
    eval_sexpression 7 init_env [] = (init_env, Except.ok (Lval.Sexpr [])) ∧
    errKind (eval_sexpression 7 init_env
      [Lval.Num (some ⟨1, 1⟩), Lval.Num (some ⟨2, 1⟩)]).2 = some LerrType.BadOp :=
  ⟨sexpr_result_dispatch.2.1 5 init_env [Lval.Num (some ⟨7, 1⟩)] init_env
      (Lval.Num (some ⟨7, 1⟩)) rfl rfl,
   sexpr_result_dispatch.1 5 init_env [] init_env rfl,
   sexpr_result_dispatch.2.2.2.2.2.2 5 init_env
      [Lval.Num (some ⟨1, 1⟩), Lval.Num (some ⟨2, 1⟩)] init_env
      (Lval.Num (some ⟨1, 1⟩)) (Lval.Num (some ⟨2, 1⟩)) [] rfl rfl⟩

/-! ### Claim C7 -/

/-- Claim C7: children of an SExpr are evaluated left to right; the first
child error stops everything (later children are not evaluated, no
partial result is kept) and that same error value is the result of the
whole SExpr. -/
theorem sexpr_error_propagation :
    (∀ (fuel : Nat) (env : Lenv) (x : Lval) (xs : List Lval) (env1 : Lenv) (e : Failure),
        eval fuel env x = (env1, Except.error e) →
        eval_children (fuel + 1) env (x :: xs) = (env1, Except.error e))
  ∧ (∀ (fuel : Nat) (env : Lenv) (x : Lval) (xs : List Lval) (env1 : Lenv) (v : Lval),
        eval fuel env x = (env1, Except.ok v) →
        eval_children (fuel + 1) env (x :: xs) =
          (match eval_children fuel env1 xs with
           | (env2, Except.ok vs) => (env2, Except.ok (v :: vs))
           | (env2, Except.error e) => (env2, Except.error e)))
  ∧ (∀ (fuel : Nat) (env : Lenv) (sexpr : List Lval) (env1 : Lenv) (e : Failure),
        eval_children fuel env sexpr = (env1, Except.error e) →
        eval_sexpression (fuel + 1) env sexpr = (env1, Except.error e)) := by
  refine ⟨?_, ?_, ?_⟩
  · intro fuel env x xs env1 e h
    show (match eval fuel env x with
      | (env2, Except.ok v) =>
        (match eval_children fuel env2 xs with
         | (env3, Except.ok vs) => (env3, Except.ok (v :: vs))
         | (env3, Except.error e1) => (env3, Except.error e1))
      | (env2, Except.error e1) => (env2, Except.error e1)) = _
    rw [h]
  · intro fuel env x xs env1 v h
    show (match eval fuel env x with
      | (env2, Except.ok v1) =>
        (match eval_children fuel env2 xs with
         | (env3, Except.ok vs) => (env3, Except.ok (v1 :: vs))
         | (env3, Except.error e1) => (env3, Except.error e1))
      | (env2, Except.error e1) => (env2, Except.error e1)) = _
    rw [h]
  · intro fuel env sexpr env1 e h
    show (match eval_children fuel env sexpr with
      | (env2, Except.error e1) => (env2, Except.error e1)
      | (env2, Except.ok results) => apply_results fuel env2 results) = _
    rw [h]

/-- Witness for C7 at a concrete input: an unbound symbol in the middle
of an SExpr propagates its `UnboundSymbol` error past the remaining
children. -/
theorem sexpr_error_propagation_witness :
    eval_children 6 init_env [Lval.Sym ['n'], Lval.Num (some ⟨1, 1⟩)] =
      (init_env, Except.error (Failure.lerr (Lerr.new LerrType.UnboundSymbol
        ('"' :: ['n'] ++ '"' :: " has not been defined".toList)))) ∧
    eval_sexpression 7 init_env [Lval.Sym ['n'], Lval.Num (some ⟨1, 1⟩)] =
      (init_env, Except.error (Failure.lerr (Lerr.new LerrType.UnboundSymbol
        ('"' :: ['n'] ++ '"' :: " has not been defined".toList)))) := by
  have h1 := sexpr_error_propagation.1 5 init_env (Lval.Sym ['n'])
    [Lval.Num (some ⟨1, 1⟩)] init_env
    (Failure.lerr (Lerr.new LerrType.UnboundSymbol
      ('"' :: ['n'] ++ '"' :: " has not been defined".toList))) rfl
  have h2 := sexpr_error_propagation.2.2 6 init_env
    [Lval.Sym ['n'], Lval.Num (some ⟨1, 1⟩)] init_env
    (Failure.lerr (Lerr.new LerrType.UnboundSymbol
      ('"' :: ['n'] ++ '"' :: " has not been defined".toList))) h1
  exact ⟨h1, h2⟩

/-! ### Claim C1 -/

theorem bind_args_no_colon (args : List Lval) :
    ∀ (largs : List (List Char)) (lenv : Lenv) (given total : Nat),
      ":".toList ∉ largs → args.length ≤ largs.length →
      bind_args given total largs lenv args =
        Except.ok (largs.drop args.length,
          ((largs.take args.length).zip args).foldl
            (fun e p => Lenv.insert e p.1 p.2) lenv) := by
  induction args with
  | nil => intro largs lenv given total _ _; simp [bind_args]
  | cons a rest ih =>
    intro largs lenv given total hcolon hle
    cases largs with
    | nil => simp at hle
    | cons sym lrest =>
      have hsym : sym ≠ ":".toList := by
        intro h
        exact hcolon (h ▸ List.mem_cons_self sym lrest)
      show (if sym = ":".toList then _ else bind_args given total lrest
        (lenv.insert sym a) rest) = _
      rw [if_neg hsym]
      rw [ih lrest (lenv.insert sym a) given total
        (fun h => hcolon (List.mem_cons_of_mem sym h)) (Nat.le_of_succ_le_succ hle)]
      simp [List.take_cons, List.zip_cons_cons, List.foldl_cons]

/-- Claim C1: applying a Lambda whose parameter list has no `:` marker to
fewer arguments than parameters returns (not an error but) a new Lambda
whose remaining parameters are the original list minus the bound prefix
and whose environment holds the already-bound arguments; concretely,
`((\ [a b] [* a b]) 5)` is a Lambda of one remaining parameter `b`, and
applying it to `6` yields `Number 30`. -/
theorem curry_partial_application :
    (∀ (fuel : Nat) (env : Lenv) (largs : List (List Char)) (body : List Lval)
        (lenv : Lenv) (args : List Lval),
        ":".toList ∉ largs → args.length < largs.length →
        call (fuel + 1) env largs body lenv args =
          (env, Except.ok (Lval.Lambda (largs.drop args.length) body
            (((largs.take args.length).zip args).foldl
              (fun e p => Lenv.insert e p.1 p.2) lenv))))
  ∧ (∃ body lenv2,
        (eval 20 init_env (Lval.Sexpr [Lval.Sexpr [Lval.Sym ['\\'],
            Lval.Qexpr [Lval.Sym ['a'], Lval.Sym ['b']],
            Lval.Qexpr [Lval.Sym ['*'], Lval.Sym ['a'], Lval.Sym ['b']]],
          Lval.Num (some ⟨5, 1⟩)])).2 =
          Except.ok (Lval.Lambda [['b']] body lenv2))
  ∧ (eval 20 init_env (Lval.Sexpr [Lval.Sexpr [Lval.Sexpr [Lval.Sym ['\\'],
        Lval.Qexpr [Lval.Sym ['a'], Lval.Sym ['b']],
        Lval.Qexpr [Lval.Sym ['*'], Lval.Sym ['a'], Lval.Sym ['b']]],
      Lval.Num (some ⟨5, 1⟩)], Lval.Num (some ⟨6, 1⟩)])).2 =
      Except.ok (Lval.Num (some ⟨30, 1⟩)) := by
  refine ⟨?_, ⟨_, _, rfl⟩, rfl⟩
  intro fuel env largs body lenv args hcolon hlt
  show (match bind_args args.length largs.length largs lenv args with
    | Except.error e => (env, Except.error (Failure.lerr e))
    | Except.ok (largs1, lenv1) =>
      match largs1 with
      | [] =>
        match lenv1.peek with
        | none => (env, Except.error Failure.panic)
        | some frame =>
          match eval fuel (env.push frame) (Lval.Sexpr body) with
          | (env2, res) => (env2.pop, res)
      | _ :: _ => (env, Except.ok (Lval.Lambda largs1 body lenv1))) = _
  rw [bind_args_no_colon args largs lenv args.length largs.length hcolon
    (Nat.le_of_lt hlt)]
  have hdrop : largs.drop args.length ≠ [] := by
    simp only [ne_eq, List.drop_eq_nil_iff]
    omega
  cases hd : largs.drop args.length with
  | nil => exact absurd hd hdrop
  | cons c cs => rfl

/-- Witness for C1: a two-parameter closure applied to one concrete
argument returns the one-parameter closure with the argument bound. -/
theorem curry_partial_application_witness :
    call 1 [] [['a'], ['b']] [] [[]] [Lval.Num (some ⟨5, 1⟩)] =
      ([], Except.ok (Lval.Lambda [['b']] []
        [[(['a'], Lval.Num (some ⟨5, 1⟩))]])) :=
  curry_partial_application.1 0 [] [['a'], ['b']] [] [[]]
    [Lval.Num (some ⟨5, 1⟩)] (by decide) (by decide)


theorem digits1_nil : digits1 [] = none := rfl

theorem digits1_cons_none_iff (d : Char) (r : List Char) :
    digits1 (d :: r) = none ↔ d.isDigit = false := by
  cases hd : d.isDigit <;> simp [digits1, List.takeWhile_cons, hd]

theorem digits1_cons_some (d : Char) (r : List Char) (hd : d.isDigit = true) :
    ∃ p, digits1 (d :: r) = some p := by
  cases h : digits1 (d :: r) with
  | none => exact absurd ((digits1_cons_none_iff d r).mp h) (by simp [hd])
  | some p => exact ⟨p, rfl⟩

theorem parseFloat_stripped (neg : Bool) (s1 : List Char) :
    (match digits1 s1 with
     | some (ip, s2) =>
       let (fp, s3) :=
         match s2 with
         | '.' :: r =>
           (match digits1 r with
            | some (ds, r2) => (ds, r2)
            | none => (([] : List Char), r))
         | _ => (([] : List Char), s2)
       let (e, s4) := parseExp s3
       some (floatVal neg ip fp e, s4)
     | none =>
       match s1 with
       | '.' :: r =>
         match digits1 r with
         | some (fp, s3) =>
           let (e, s4) := parseExp s3
           some (floatVal neg [] fp e, s4)
         | none => none
       | _ => none) = none ↔ noFloatShape s1 := by
  cases s1 with
  | nil => simp [digits1, noFloatShape]
  | cons d r =>
    cases hd : d.isDigit with
    | true =>
      obtain ⟨⟨ip, s2⟩, hdig⟩ := digits1_cons_some d r hd
      rw [hdig]
      simp only [noFloatShape, hd]
      constructor
      · intro hcontra
        revert hcontra
        generalize (match s2 with
          | '.' :: r =>
            (match digits1 r with
             | some (ds, r2) => (ds, r2)
             | none => (([] : List Char), r))
          | _ => (([] : List Char), s2)) = p
        obtain ⟨fp, s3⟩ := p
        generalize parseExp s3 = q
        obtain ⟨e, s4⟩ := q
        simp
      · rintro ⟨h1, -⟩
        simp at h1
    | false =>
      have hdig : digits1 (d :: r) = none := (digits1_cons_none_iff d r).mpr hd
      rw [hdig]
      by_cases hdot : d = '.'
      · subst hdot
        cases r with
        | nil => simp [digits1, noFloatShape, headNotDigit, hd]
        | cons e r2 =>
          have hshow : ∀ P : Prop, ((match digits1 (e :: r2) with
              | some (fp, s3) =>
                match parseExp s3 with
                | (e1, s4) => some (floatVal neg [] fp e1, s4)
              | none => (none : Option (Q × List Char))) = none ↔ P) →
              ((match (none : Option (List Char × List Char)) with
                | some (ip, s2) =>
                  match
                    match s2 with
                    | '.' :: r =>
                      match digits1 r with
                      | some (ds, r2) => (ds, r2)
                      | none => ([], r)
                    | x => ([], s2) with
                  | (fp, s3) =>
                    match parseExp s3 with
                    | (e1, s4) => some (floatVal neg ip fp e1, s4)
                | none =>
                  match '.' :: e :: r2 with
                  | '.' :: r =>
                    match digits1 r with
                    | some (fp, s3) =>
                      match parseExp s3 with
                      | (e1, s4) => some (floatVal neg [] fp e1, s4)
                    | none => none
                  | x => none) = none ↔ P) := fun P h => h
          cases he : e.isDigit with
          | true =>
            obtain ⟨⟨fp, s3⟩, hd2⟩ := digits1_cons_some e r2 he
            refine hshow _ ?_
            rw [hd2]
            simp only [noFloatShape, headNotDigit, hd, he]
            constructor
            · intro hcontra
              revert hcontra
              generalize parseExp s3 = q
              obtain ⟨e1, s4⟩ := q
              simp
            · rintro ⟨-, h2⟩
              simp [he] at h2
          | false =>
            have hd2 : digits1 (e :: r2) = none := (digits1_cons_none_iff e r2).mpr he
            refine hshow _ ?_
            rw [hd2]
            simp [noFloatShape, headNotDigit, hd, he]
      · have hmatch : (match d :: r with
            | '.' :: r3 =>
              match digits1 r3 with
              | some (fp, s3) =>
                let (e, s4) := parseExp s3
                some (floatVal neg [] fp e, s4)
              | none => none
            | _ => (none : Option (Q × List Char))) = none := by
          split
          · next r3 heq =>
            obtain ⟨h1, -⟩ := List.cons.inj heq
            exact absurd h1 hdot
          · rfl
        rw [hmatch]
        simp [noFloatShape, hd, hdot]


theorem parseFloat_not_sign (c : Char) (s1 : List Char) (h1 : c ≠ '+') (h2 : c ≠ '-') :
    parseFloat (c :: s1) =
      (match digits1 (c :: s1) with
       | some (ip, s2) =>
         let (fp, s3) :=
           match s2 with
           | '.' :: r =>
             (match digits1 r with
              | some (ds, r2) => (ds, r2)
              | none => (([] : List Char), r))
           | _ => (([] : List Char), s2)
         let (e, s4) := parseExp s3
         some (floatVal false ip fp e, s4)
       | none =>
         match c :: s1 with
         | '.' :: r =>
           match digits1 r with
           | some (fp, s3) =>
             let (e, s4) := parseExp s3
             some (floatVal false [] fp e, s4)
           | none => none
         | _ => none) := by
  unfold parseFloat
  have hsign : (match c :: s1 with
      | '+' :: r => (false, r)
      | '-' :: r => (true, r)
      | _ => (false, c :: s1)) = (false, c :: s1) := by
    split
    · next r heq =>
      obtain ⟨hc, -⟩ := List.cons.inj heq
      exact absurd hc h1
    · next r heq =>
      obtain ⟨hc, -⟩ := List.cons.inj heq
      exact absurd hc h2
    · rfl
  rw [hsign]

theorem parseFloat_none_iff (s : List Char) : parseFloat s = none ↔ floatFail s := by
  cases s with
  | nil => simp [parseFloat, floatFail, digits1]
  | cons c s1 =>
    by_cases hplus : c = '+'
    · subst hplus
      rw [show floatFail ('+' :: s1) = noFloatShape s1 from by simp [floatFail]]
      exact parseFloat_stripped false s1
    · by_cases hminus : c = '-'
      · subst hminus
        rw [show floatFail ('-' :: s1) = noFloatShape s1 from by simp [floatFail]]
        exact parseFloat_stripped true s1
      · rw [show floatFail (c :: s1) = noFloatShape (c :: s1) from by
          simp [floatFail, hplus, hminus]]
        rw [parseFloat_not_sign c s1 hplus hminus]
        exact parseFloat_stripped false (c :: s1)


theorem stop_headNotDigit (stop : List Char) (h : stopOk stop) : headNotDigit stop := by
  cases stop with
  | nil => trivial
  | cons c r => rcases h with h | h | h <;> subst h <;> exact rfl

theorem stop_noFloatShape (stop : List Char) (h : stopOk stop) : noFloatShape stop := by
  cases stop with
  | nil => trivial
  | cons c r =>
    rcases h with h | h | h <;> subst h <;>
      exact ⟨rfl, fun hc => absurd hc (by decide)⟩

theorem stop_floatFail (stop : List Char) (h : stopOk stop) : floatFail stop := by
  cases stop with
  | nil => trivial
  | cons c r =>
    show if c = '+' ∨ c = '-' then noFloatShape r else noFloatShape (c :: r)
    rcases h with h | h | h <;> subst h <;>
      · rw [if_neg (by decide)]
        exact stop_noFloatShape _ (by simp [stopOk])

theorem headNotDigit_append (l stop : List Char) (h : headNotDigit l) (hstop : stopOk stop) :
    headNotDigit (l ++ stop) := by
  cases l with
  | nil => exact stop_headNotDigit stop hstop
  | cons d r => exact h

theorem noFloatShape_append (l stop : List Char) (h : noFloatShape l) (hstop : stopOk stop) :
    noFloatShape (l ++ stop) := by
  cases l with
  | nil => exact stop_noFloatShape stop hstop
  | cons d r => exact ⟨h.1, fun hdot => headNotDigit_append r stop (h.2 hdot) hstop⟩

theorem floatFail_append (s stop : List Char) (hs : floatFail s) (hstop : stopOk stop) :
    floatFail (s ++ stop) := by
  cases s with
  | nil => exact stop_floatFail stop hstop
  | cons c s1 =>
    show if c = '+' ∨ c = '-' then noFloatShape (s1 ++ stop)
      else noFloatShape (c :: (s1 ++ stop))
    by_cases hsign : c = '+' ∨ c = '-'
    · rw [if_pos hsign]
      rw [show floatFail (c :: s1) = noFloatShape s1 from by simp [floatFail, hsign]] at hs
      exact noFloatShape_append s1 stop hs hstop
    · rw [if_neg hsign]
      rw [show floatFail (c :: s1) = noFloatShape (c :: s1) from by
        simp [floatFail, hsign]] at hs
      exact ⟨hs.1, fun hdot => headNotDigit_append s1 stop (hs.2 hdot) hstop⟩

theorem floatFail_left (a b : List Char) (h : floatFail (a ++ b))
    (ha : a.all isSymbolChar = true) : floatFail a := by
  cases a with
  | nil => trivial
  | cons c a1 =>
    have hc : isSymbolChar c = true := by
      have := List.all_eq_true.mp ha
      exact this c (List.mem_cons_self c a1)
    have ha1 : ∀ d ∈ a1, isSymbolChar d = true := by
      intro d hd
      exact List.all_eq_true.mp ha d (List.mem_cons_of_mem c hd)
    show if c = '+' ∨ c = '-' then noFloatShape a1 else noFloatShape (c :: a1)
    have hh : floatFail (c :: (a1 ++ b)) := h
    by_cases hsign : c = '+' ∨ c = '-'
    · rw [if_pos hsign]
      rw [show floatFail (c :: (a1 ++ b)) = noFloatShape (a1 ++ b) from by
        simp [floatFail, hsign]] at hh
      cases a1 with
      | nil => trivial
      | cons d a2 =>
        refine ⟨hh.1, fun hdot => ?_⟩
        have : isSymbolChar d = true := ha1 d (List.mem_cons_self d a2)
        rw [hdot] at this
        exact absurd this (by decide)
    · rw [if_neg hsign]
      rw [show floatFail (c :: (a1 ++ b)) = noFloatShape (c :: (a1 ++ b)) from by
        simp [floatFail, hsign]] at hh
      refine ⟨hh.1, fun hdot => ?_⟩
      rw [hdot] at hc
      exact absurd hc (by decide)

theorem parseFloat_append_none (s stop : List Char) (h : parseFloat s = none)
    (hstop : stopOk stop) : parseFloat (s ++ stop) = none :=
  (parseFloat_none_iff _).mpr
    (floatFail_append s stop ((parseFloat_none_iff s).mp h) hstop)

theorem parseFloat_prefix_none (a b : List Char) (h : parseFloat (a ++ b) = none)
    (ha : a.all isSymbolChar = true) : parseFloat a = none :=
  (parseFloat_none_iff _).mpr
    (floatFail_left a b ((parseFloat_none_iff _).mp h) ha)

theorem symbolChar_not_space (c : Char) (h : isSymbolChar c = true) :
    isSpaceChar c = false := by
  cases hsp : isSpaceChar c with
  | false => rfl
  | true =>
    have h2 : ((c = ' ' ∨ c = '\t') ∨ c = '\n') ∨ c = '\r' := by
      simpa [isSpaceChar] using hsp
    rcases h2 with ((rfl | rfl) | rfl) | rfl <;> exact absurd h (by decide)

theorem symbolChar_ne_delims (c : Char) (h : isSymbolChar c = true) :
    c ≠ '"' ∧ c ≠ '(' ∧ c ≠ '[' ∧ c ≠ ')' ∧ c ≠ ']' := by
  refine ⟨?_, ?_, ?_, ?_, ?_⟩ <;>
    · intro heq
      rw [heq] at h
      exact absurd h (by decide)

theorem ms0_not_space (c : Char) (r : List Char) (h : isSpaceChar c = false) :
    multispace0 (c :: r) = c :: r := by
  simp [multispace0, List.dropWhile_cons, h]

theorem parse_expression_succ (f : Nat) (s : List Char) :
    parse_expression (f + 1) s =
      (match parse_number s with
       | some res => some res
       | none =>
         match parse_symbol s with
         | some res => some res
         | none =>
           match parse_string s with
           | some res => some res
           | none =>
             match parse_sexpression f s with
             | some res => some res
             | none => parse_qexpression f s) := rfl

theorem parse_number_space (r : List Char) : parse_number (' ' :: r) = parse_number r := rfl

theorem parse_symbol_space (r : List Char) : parse_symbol (' ' :: r) = parse_symbol r := rfl

theorem parse_string_space (r : List Char) : parse_string (' ' :: r) = parse_string r := rfl

theorem parse_sexpression_space (f : Nat) (r : List Char) :
    parse_sexpression f (' ' :: r) = parse_sexpression f r := by
  cases f <;> rfl

theorem parse_qexpression_space (f : Nat) (r : List Char) :
    parse_qexpression f (' ' :: r) = parse_qexpression f r := by
  cases f <;> rfl

theorem parse_expression_space (f : Nat) (r : List Char) :
    parse_expression f (' ' :: r) = parse_expression f r := by
  cases f with
  | zero => rfl
  | succ f =>
    rw [parse_expression_succ, parse_expression_succ, parse_number_space,
      parse_symbol_space, parse_string_space, parse_sexpression_space,
      parse_qexpression_space]

theorem parse_sexpression_not_open (f : Nat) (c : Char) (r : List Char)
    (hsp : isSpaceChar c = false) (hc : c ≠ '(') :
    parse_sexpression f (c :: r) = none := by
  cases f with
  | zero => rfl
  | succ f =>
    show (match multispace0 (c :: r) with
      | '(' :: r1 =>
        match many0_expressions f r1 with
        | some (es, r2) =>
          (match multispace0 r2 with
           | ')' :: r3 => some (Lval.Sexpr es, r3)
           | _ => none)
        | none => none
      | _ => none) = none
    rw [ms0_not_space c r hsp]
    split
    · next r1 heq =>
      obtain ⟨h1, -⟩ := List.cons.inj heq
      exact absurd h1 hc
    · rfl

theorem parse_qexpression_not_bracket (f : Nat) (c : Char) (r : List Char)
    (hsp : isSpaceChar c = false) (hc : c ≠ '[') :
    parse_qexpression f (c :: r) = none := by
  cases f with
  | zero => rfl
  | succ f =>
    show (match multispace0 (c :: r) with
      | '[' :: r1 =>
        match many0_expressions f r1 with
        | some (es, r2) =>
          (match multispace0 r2 with
           | ']' :: r3 => some (Lval.Qexpr es, r3)
           | _ => none)
        | none => none
      | _ => none) = none
    rw [ms0_not_space c r hsp]
    split
    · next r1 heq =>
      obtain ⟨h1, -⟩ := List.cons.inj heq
      exact absurd h1 hc
    · rfl

theorem parse_expression_close (f : Nat) (c : Char) (r : List Char)
    (hc : c = ')' ∨ c = ']') : parse_expression f (c :: r) = none := by
  cases f with
  | zero => rfl
  | succ f =>
    rw [parse_expression_succ]
    rcases hc with rfl | rfl
    · rw [show parse_number (')' :: r) = none from rfl,
        show parse_symbol (')' :: r) = none from rfl,
        show parse_string (')' :: r) = none from rfl,
        parse_sexpression_not_open f _ r (by decide) (by decide),
        parse_qexpression_not_bracket f _ r (by decide) (by decide)]
    · rw [show parse_number (']' :: r) = none from rfl,
        show parse_symbol (']' :: r) = none from rfl,
        show parse_string (']' :: r) = none from rfl,
        parse_sexpression_not_open f _ r (by decide) (by decide),
        parse_qexpression_not_bracket f _ r (by decide) (by decide)]

theorem parse_sexpression_nil (f : Nat) : parse_sexpression f [] = none := by
  cases f <;> rfl

theorem parse_qexpression_nil (f : Nat) : parse_qexpression f [] = none := by
  cases f <;> rfl

theorem parse_expression_nil (f : Nat) : parse_expression f [] = none := by
  cases f with
  | zero => rfl
  | succ f =>
    rw [parse_expression_succ,
      show parse_number [] = none from rfl,
      show parse_symbol [] = none from rfl,
      show parse_string [] = none from rfl,
      parse_sexpression_nil f, parse_qexpression_nil f]

theorem takeWhile_symbol_append (s stop : List Char) (hs : s.all isSymbolChar = true)
    (hstop : stopOk stop) : (s ++ stop).takeWhile isSymbolChar = s := by
  induction s with
  | nil =>
    cases stop with
    | nil => rfl
    | cons c r =>
      rcases hstop with rfl | rfl | rfl <;> rfl
  | cons c s1 ih =>
    have hc : isSymbolChar c = true := List.all_eq_true.mp hs c (List.mem_cons_self c s1)
    have hs1 : s1.all isSymbolChar = true := by
      rw [List.all_eq_true]
      intro d hd
      exact List.all_eq_true.mp hs d (List.mem_cons_of_mem c hd)
    simp only [List.cons_append, List.takeWhile_cons, hc]
    rw [ih hs1]
    simp

theorem parse_symbol_display (s stop : List Char) (hne : s ≠ [])
    (hs : s.all isSymbolChar = true) (hstop : stopOk stop) :
    parse_symbol (s ++ stop) = some (Lval.Sym s, stop) := by
  cases s with
  | nil => exact absurd rfl hne
  | cons c s1 =>
    have hc : isSymbolChar c = true := List.all_eq_true.mp hs c (List.mem_cons_self c s1)
    have hms : multispace0 ((c :: s1) ++ stop) = (c :: s1) ++ stop := by
      rw [show (c :: s1) ++ stop = c :: (s1 ++ stop) from rfl]
      exact ms0_not_space c (s1 ++ stop) (symbolChar_not_space c hc)
    show (if (List.takeWhile isSymbolChar (multispace0 ((c :: s1) ++ stop))).isEmpty then none
      else some (Lval.Sym (List.takeWhile isSymbolChar (multispace0 ((c :: s1) ++ stop))),
        List.drop (List.takeWhile isSymbolChar (multispace0 ((c :: s1) ++ stop))).length
          (multispace0 ((c :: s1) ++ stop)))) = _
    rw [hms, takeWhile_symbol_append (c :: s1) stop hs hstop]
    simp only [List.isEmpty_cons, if_false, Bool.false_eq_true]
    rw [List.drop_left]

theorem parse_string_not_quote (c : Char) (r : List Char) (hsp : isSpaceChar c = false)
    (hq : c ≠ '"') : parse_string (c :: r) = none := by
  show (match multispace0 (c :: r) with
    | '"' :: r1 =>
      let content := r1.takeWhile (fun ch => ch ≠ '"')
      let r2 := multispace0 (r1.drop content.length)
      (match r2 with
       | '"' :: r3 => some (Lval.Str content, r3)
       | _ => none)
    | _ => none) = none
  rw [ms0_not_space c r hsp]
  split
  · next r1 heq =>
    obtain ⟨h1, -⟩ := List.cons.inj heq
    exact absurd h1 hq
  · rfl

theorem parse_number_display (s stop : List Char) (hfloat : parseFloat s = none)
    (hs : s.all isSymbolChar = true) (hne : s ≠ []) (hstop : stopOk stop) :
    parse_number (s ++ stop) = none := by
  cases s with
  | nil => exact absurd rfl hne
  | cons c s1 =>
    have hc : isSymbolChar c = true := List.all_eq_true.mp hs c (List.mem_cons_self c s1)
    show (match parseFloat (multispace0 ((c :: s1) ++ stop)) with
      | some (q, r) => some (Lval.Num (some q), r)
      | none => none) = none
    rw [show (c :: s1) ++ stop = c :: (s1 ++ stop) from rfl,
      ms0_not_space c (s1 ++ stop) (symbolChar_not_space c hc),
      show (c :: (s1 ++ stop)) = (c :: s1) ++ stop from rfl,
      parseFloat_append_none (c :: s1) stop hfloat hstop]

theorem goodVal_sym (s : List Char) (h : goodVal (Lval.Sym s) = true) :
    s ≠ [] ∧ s.all isSymbolChar = true ∧ parseFloat s = none := by
  simp only [goodVal, Bool.and_eq_true, Bool.not_eq_true', Option.isNone_iff_eq_none] at h
  obtain ⟨⟨h1, h2⟩, h3⟩ := h
  exact ⟨by simpa [List.isEmpty_iff] using h1, h2, h3⟩

theorem goodList_cons (e : Lval) (es : List Lval) (h : goodList (e :: es) = true) :
    goodVal e = true ∧ goodList es = true := by
  simpa [goodList, Bool.and_eq_true] using h

theorem numStrFreeList_cons (e : Lval) (es : List Lval)
    (h : numStrFreeList (e :: es) = true) :
    numStrFree e = true ∧ numStrFreeList es = true := by
  simpa [numStrFreeList, Bool.and_eq_true] using h

theorem parseCost_pos (v : Lval) : 1 ≤ parseCost v := by
  cases v <;> simp [parseCost] <;> omega

theorem parseCostList_cons (e : Lval) (es : List Lval) :
    parseCostList (e :: es) = 1 + parseCost e + parseCostList es := rfl

theorem many0_succ (f : Nat) (s : List Char) :
    many0_expressions (f + 1) s =
      (match parse_expression f s with
       | none => some ([], s)
       | some (v, r) =>
         if r.length < s.length then
           (match many0_expressions f r with
            | some (vs, r1) => some (v :: vs, r1)
            | none => none)
         else none) := rfl

theorem parse_number_open (r : List Char) : parse_number ('(' :: r) = none := rfl

theorem parse_symbol_open (r : List Char) : parse_symbol ('(' :: r) = none := rfl

theorem parse_string_open (r : List Char) : parse_string ('(' :: r) = none := rfl

theorem parse_number_bracket (r : List Char) : parse_number ('[' :: r) = none := rfl

theorem parse_symbol_bracket (r : List Char) : parse_symbol ('[' :: r) = none := rfl

theorem parse_string_bracket (r : List Char) : parse_string ('[' :: r) = none := rfl

theorem parse_sexpression_open (f : Nat) (r : List Char) :
    parse_sexpression (f + 1) ('(' :: r) =
      (match many0_expressions f r with
       | some (es1, r2) =>
         (match multispace0 r2 with
          | ')' :: r3 => some (Lval.Sexpr es1, r3)
          | _ => none)
       | none => none) := rfl

theorem parse_qexpression_open (f : Nat) (r : List Char) :
    parse_qexpression (f + 1) ('[' :: r) =
      (match many0_expressions f r with
       | some (es1, r2) =>
         (match multispace0 r2 with
          | ']' :: r3 => some (Lval.Qexpr es1, r3)
          | _ => none)
       | none => none) := rfl

theorem many0_none (f : Nat) (t : List Char) (h : parse_expression f t = none) :
    many0_expressions (f + 1) t = some ([], t) := by
  rw [many0_succ, h]

theorem many0_step (f : Nat) (s r : List Char) (v : Lval)
    (hp : parse_expression f s = some (v, r)) (hlen : r.length < s.length) :
    many0_expressions (f + 1) s =
      (match many0_expressions f r with
       | some (vs, r1) => some (v :: vs, r1)
       | none => none) := by
  rw [many0_succ, hp]
  show (if r.length < s.length then
      (match many0_expressions f r with
       | some (vs, r1) => some (v :: vs, r1)
       | none => none)
    else none) = _
  rw [if_pos hlen]

mutual

theorem parse_display (v : Lval) (hgood : goodVal v = true) (hnf : numStrFree v = true) :
    ∀ (f : Nat) (stop : List Char), parseCost v ≤ f → stopOk stop →
      parse_expression f (lvalDisplay v ++ stop) = some (v, stop) := by
  cases v with
  | Sym s =>
    intro f stop hcost hstop
    obtain ⟨hne, hall, hfloat⟩ := goodVal_sym s hgood
    obtain ⟨f1, rfl⟩ : ∃ f1, f = f1 + 1 := ⟨f - 1, by
      have := parseCost_pos (Lval.Sym s)
      omega⟩
    rw [show lvalDisplay (Lval.Sym s) = s from rfl, parse_expression_succ,
      parse_number_display s stop hfloat hall hne hstop,
      parse_symbol_display s stop hne hall hstop]
  | Num n => simp [numStrFree] at hnf
  | Str s => simp [numStrFree] at hnf
  | Fun n => simp [goodVal] at hgood
  | Lambda a b c => simp [goodVal] at hgood
  | Sexpr es =>
    intro f stop hcost hstop
    have hgl : goodList es = true := by simpa [goodVal] using hgood
    have hnl : numStrFreeList es = true := by simpa [numStrFree] using hnf
    rw [show parseCost (Lval.Sexpr es) = 2 + parseCostList es from rfl] at hcost
    have hlpos : 1 ≤ parseCostList es := by
      cases es with
      | nil => simp [parseCostList]
      | cons a b => rw [parseCostList_cons]; have := parseCost_pos a; omega
    obtain ⟨f2, rfl⟩ : ∃ f2, f = f2 + 2 := ⟨f - 2, by omega⟩
    have hform : lvalDisplay (Lval.Sexpr es) ++ stop =
        '(' :: ' ' :: (joinSpace (lvalDisplayList es) ++ (' ' :: ')' :: stop)) := by
      show ('(' :: ' ' :: (joinSpace (lvalDisplayList es) ++ [' ', ')'])) ++ stop = _
      simp [List.append_assoc]
    rw [hform, parse_expression_succ, parse_number_open, parse_symbol_open,
      parse_string_open, parse_sexpression_open]
    cases es with
    | nil =>
      rw [show joinSpace (lvalDisplayList []) = [] from rfl, List.nil_append]
      obtain ⟨f3, rfl⟩ : ∃ f3, f2 = f3 + 1 := ⟨f2 - 1, by omega⟩
      rw [many0_none f3 (' ' :: ' ' :: ')' :: stop) (by
        rw [parse_expression_space, parse_expression_space]
        exact parse_expression_close f3 ')' stop (Or.inl rfl))]
      rfl
    | cons e tail =>
      rw [show (' ' :: (joinSpace (lvalDisplayList (e :: tail)) ++ (' ' :: ')' :: stop))) =
          ' ' :: joinSpace (lvalDisplayList (e :: tail)) ++ ' ' :: ')' :: stop from rfl]
      rw [many_display e tail hgl hnl f2 ')' stop (by omega) (Or.inl rfl) hstop]
      rfl
  | Qexpr es =>
    intro f stop hcost hstop
    have hgl : goodList es = true := by simpa [goodVal] using hgood
    have hnl : numStrFreeList es = true := by simpa [numStrFree] using hnf
    rw [show parseCost (Lval.Qexpr es) = 2 + parseCostList es from rfl] at hcost
    have hlpos : 1 ≤ parseCostList es := by
      cases es with
      | nil => simp [parseCostList]
      | cons a b => rw [parseCostList_cons]; have := parseCost_pos a; omega
    obtain ⟨f2, rfl⟩ : ∃ f2, f = f2 + 2 := ⟨f - 2, by omega⟩
    have hform : lvalDisplay (Lval.Qexpr es) ++ stop =
        '[' :: ' ' :: (joinSpace (lvalDisplayList es) ++ (' ' :: ']' :: stop)) := by
      show ('[' :: ' ' :: (joinSpace (lvalDisplayList es) ++ [' ', ']'])) ++ stop = _
      simp [List.append_assoc]
    rw [hform, parse_expression_succ, parse_number_bracket, parse_symbol_bracket,
      parse_string_bracket,
      parse_sexpression_not_open (f2 + 1) '[' _ (by decide) (by decide),
      parse_qexpression_open]
    cases es with
    | nil =>
      rw [show joinSpace (lvalDisplayList []) = [] from rfl, List.nil_append]
      obtain ⟨f3, rfl⟩ : ∃ f3, f2 = f3 + 1 := ⟨f2 - 1, by omega⟩
      rw [many0_none f3 (' ' :: ' ' :: ']' :: stop) (by
        rw [parse_expression_space, parse_expression_space]
        exact parse_expression_close f3 ']' stop (Or.inr rfl))]
      rfl
    | cons e tail =>
      rw [show (' ' :: (joinSpace (lvalDisplayList (e :: tail)) ++ (' ' :: ']' :: stop))) =
          ' ' :: joinSpace (lvalDisplayList (e :: tail)) ++ ' ' :: ']' :: stop from rfl]
      rw [many_display e tail hgl hnl f2 ']' stop (by omega) (Or.inr rfl) hstop]
      rfl
termination_by sizeOf v

theorem many_display (e : Lval) (es : List Lval) (hgood : goodList (e :: es) = true)
    (hnf : numStrFreeList (e :: es) = true) :
    ∀ (f : Nat) (close : Char) (stop : List Char), parseCostList (e :: es) ≤ f →
      (close = ')' ∨ close = ']') → stopOk stop →
      many0_expressions f
          (' ' :: joinSpace (lvalDisplayList (e :: es)) ++ ' ' :: close :: stop) =
        some (e :: es, ' ' :: close :: stop) := by
  intro f close stop hcost hclose hstop
  obtain ⟨hge, hgl⟩ := goodList_cons e es hgood
  obtain ⟨hne, hnl⟩ := numStrFreeList_cons e es hnf
  rw [parseCostList_cons] at hcost
  have hepos := parseCost_pos e
  obtain ⟨f1, rfl⟩ : ∃ f1, f = f1 + 1 := ⟨f - 1, by omega⟩
  cases es with
  | nil =>
    rw [show parseCostList ([] : List Lval) = 1 from rfl] at hcost
    rw [show (' ' :: joinSpace (lvalDisplayList [e]) ++ ' ' :: close :: stop) =
      ' ' :: (lvalDisplay e ++ (' ' :: close :: stop)) from rfl]
    rw [many0_step f1 (' ' :: (lvalDisplay e ++ (' ' :: close :: stop)))
      (' ' :: close :: stop) e
      (by
        rw [parse_expression_space]
        exact parse_display e hge hne f1 (' ' :: close :: stop) (by omega) (Or.inl rfl))
      (by simp only [List.length_cons, List.length_append]; omega)]
    obtain ⟨f2, rfl⟩ : ∃ f2, f1 = f2 + 1 := ⟨f1 - 1, by omega⟩
    rw [many0_none f2 (' ' :: close :: stop) (by
      rw [parse_expression_space]
      exact parse_expression_close f2 close stop hclose)]
  | cons e2 tail =>
    rw [show (' ' :: joinSpace (lvalDisplayList (e :: e2 :: tail)) ++ ' ' :: close :: stop) =
      ' ' :: (lvalDisplay e ++
        (' ' :: (joinSpace (lvalDisplayList (e2 :: tail)) ++ (' ' :: close :: stop)))) from by
      show ' ' :: ((lvalDisplay e ++ ' ' :: joinSpace (lvalDisplayList (e2 :: tail))) ++
        ' ' :: close :: stop) = _
      simp [List.append_assoc]]
    rw [many0_step f1
      (' ' :: (lvalDisplay e ++
        (' ' :: (joinSpace (lvalDisplayList (e2 :: tail)) ++ (' ' :: close :: stop)))))
      (' ' :: (joinSpace (lvalDisplayList (e2 :: tail)) ++ (' ' :: close :: stop))) e
      (by
        rw [parse_expression_space]
        exact parse_display e hge hne f1
          (' ' :: (joinSpace (lvalDisplayList (e2 :: tail)) ++ (' ' :: close :: stop)))
          (by omega) (Or.inl rfl))
      (by simp only [List.length_cons, List.length_append]; omega)]
    rw [show (' ' :: (joinSpace (lvalDisplayList (e2 :: tail)) ++ (' ' :: close :: stop))) =
      ' ' :: joinSpace (lvalDisplayList (e2 :: tail)) ++ ' ' :: close :: stop from rfl]
    rw [many_display e2 tail hgl hnl f1 close stop (by omega) hclose hstop]
termination_by sizeOf e + sizeOf es

end

theorem all_takeWhile_symbol (l : List Char) :
    (l.takeWhile isSymbolChar).all isSymbolChar = true := by
  induction l with
  | nil => rfl
  | cons c t ih =>
    rw [List.takeWhile_cons]
    by_cases h : isSymbolChar c = true
    · simp [h, ih]
    · simp [h]

theorem parse_number_eq (s : List Char) :
    parse_number s =
      (match parseFloat (multispace0 s) with
       | some (q, r) => some (Lval.Num (some q), r)
       | none => none) := rfl

theorem parse_symbol_eq (s : List Char) :
    parse_symbol s =
      (if ((multispace0 s).takeWhile isSymbolChar).isEmpty then none
       else some (Lval.Sym ((multispace0 s).takeWhile isSymbolChar),
         (multispace0 s).drop ((multispace0 s).takeWhile isSymbolChar).length)) := rfl

theorem parse_string_eq (s : List Char) :
    parse_string s =
      (match multispace0 s with
       | '"' :: r =>
         (match multispace0 (r.drop (r.takeWhile (fun c => c ≠ '"')).length) with
          | '"' :: r2 => some (Lval.Str (r.takeWhile (fun c => c ≠ '"')), r2)
          | _ => none)
       | _ => none) := rfl

theorem parse_number_shape (s : List Char) (v : Lval) (r : List Char)
    (h : parse_number s = some (v, r)) : ∃ q, v = Lval.Num q := by
  rw [parse_number_eq] at h
  split at h
  · injection h with h1
    injection h1 with h2 h3
    exact ⟨_, h2.symm⟩
  · exact absurd h (by simp)

theorem parse_string_shape (s : List Char) (v : Lval) (r : List Char)
    (h : parse_string s = some (v, r)) : ∃ c, v = Lval.Str c := by
  rw [parse_string_eq] at h
  split at h
  · split at h
    · injection h with h1
      injection h1 with h2 h3
      exact ⟨_, h2.symm⟩
    · exact absurd h (by simp)
  · exact absurd h (by simp)

theorem parse_symbol_good (s : List Char) (v : Lval) (r : List Char)
    (hn : parse_number s = none) (h : parse_symbol s = some (v, r)) :
    goodVal v = true := by
  have hfl : parseFloat (multispace0 s) = none := by
    rw [parse_number_eq] at hn
    split at hn
    · exact absurd hn (by simp)
    · assumption
  rw [parse_symbol_eq] at h
  split at h
  · exact absurd h (by simp)
  · rename_i hrun
    injection h with h1
    injection h1 with h2 h3
    subst h2
    have hall := all_takeWhile_symbol (multispace0 s)
    have hpre : parseFloat ((multispace0 s).takeWhile isSymbolChar) = none := by
      apply parseFloat_prefix_none _ ((multispace0 s).dropWhile isSymbolChar) _ hall
      rw [List.takeWhile_append_dropWhile]
      exact hfl
    show goodVal (Lval.Sym _) = true
    simp only [goodVal, hpre, hall, Option.isNone_none, Bool.and_true, Bool.true_and]
    simpa using hrun

theorem parse_sexpression_succ (f : Nat) (s : List Char) :
    parse_sexpression (f + 1) s =
      (match multispace0 s with
       | '(' :: r =>
         (match many0_expressions f r with
          | some (es, r1) =>
            (match multispace0 r1 with
             | ')' :: r2 => some (Lval.Sexpr es, r2)
             | _ => none)
          | none => none)
       | _ => none) := rfl

theorem parse_qexpression_succ (f : Nat) (s : List Char) :
    parse_qexpression (f + 1) s =
      (match multispace0 s with
       | '[' :: r =>
         (match many0_expressions f r with
          | some (es, r1) =>
            (match multispace0 r1 with
             | ']' :: r2 => some (Lval.Qexpr es, r2)
             | _ => none)
          | none => none)
       | _ => none) := rfl

theorem parser_good (f : Nat) :
    (∀ s v r, parse_expression f s = some (v, r) → goodVal v = true) ∧
    (∀ s v r, parse_sexpression f s = some (v, r) → goodVal v = true) ∧
    (∀ s v r, parse_qexpression f s = some (v, r) → goodVal v = true) ∧
    (∀ s vs r, many0_expressions f s = some (vs, r) → goodList vs = true) := by
  induction f with
  | zero =>
    refine ⟨?_, ?_, ?_, ?_⟩ <;> intro s a r h <;>
      exact absurd h (by
        simp [parse_expression, parse_sexpression, parse_qexpression, many0_expressions])
  | succ f ih =>
    obtain ⟨ihE, ihS, ihQ, ihM⟩ := ih
    refine ⟨?_, ?_, ?_, ?_⟩
    · intro s v r h
      rw [parse_expression_succ] at h
      split at h
      · rename_i res heq
        injection h with h1
        obtain ⟨q, hq⟩ := parse_number_shape s res.1 res.2 (by rw [heq])
        rw [h1] at hq
        have hv : v = Lval.Num q := hq
        rw [hv]
        rfl
      · rename_i hnum
        split at h
        · rename_i res heq
          injection h with h1
          rw [h1] at heq
          exact parse_symbol_good s v r hnum heq
        · split at h
          · rename_i res heq
            injection h with h1
            obtain ⟨c, hc⟩ := parse_string_shape s res.1 res.2 (by rw [heq])
            rw [h1] at hc
            have hv : v = Lval.Str c := hc
            rw [hv]
            rfl
          · split at h
            · rename_i res heq
              injection h with h1
              rw [h1] at heq
              exact ihS s v r heq
            · exact ihQ s v r h
    · intro s v r h
      rw [parse_sexpression_succ] at h
      split at h
      · split at h
        · split at h
          · injection h with h1
            injection h1 with h2 h3
            subst h2
            exact ihM _ _ _ (by assumption)
          · exact absurd h (by simp)
        · exact absurd h (by simp)
      · exact absurd h (by simp)
    · intro s v r h
      rw [parse_qexpression_succ] at h
      split at h
      · split at h
        · split at h
          · injection h with h1
            injection h1 with h2 h3
            subst h2
            exact ihM _ _ _ (by assumption)
          · exact absurd h (by simp)
        · exact absurd h (by simp)
      · exact absurd h (by simp)
    · intro s vs r h
      rw [many0_succ] at h
      split at h
      · injection h with h1
        injection h1 with h2 h3
        rw [h2.symm]
        rfl
      · rename_i v0 r0 heqE
        split at h
        · split at h
          · rename_i vs1 r1 heqM
            injection h with h1
            injection h1 with h2 h3
            rw [h2.symm]
            show (goodVal v0 && goodList vs1) = true
            rw [ihE s v0 r0 heqE, ihM r0 vs1 r1 heqM]
            rfl
          · exact absurd h (by simp)
        · exact absurd h (by simp)

mutual

theorem parseCost_le_display (v : Lval) (hg : goodVal v = true)
    (hn : numStrFree v = true) : parseCost v ≤ (lvalDisplay v).length := by
  cases v with
  | Sym s =>
    show 1 ≤ s.length
    have : s.isEmpty = false := by
      have h1 : (!s.isEmpty && s.all isSymbolChar && (parseFloat s).isNone) = true := hg
      simp only [Bool.and_eq_true, Bool.not_eq_true'] at h1
      exact h1.1.1
    cases s with
    | nil => simp [List.isEmpty] at this
    | cons c t => simp
  | Num n => simp [numStrFree] at hn
  | Str s => simp [numStrFree] at hn
  | Fun n => simp [goodVal] at hg
  | Lambda a b c => simp [goodVal] at hg
  | Sexpr es =>
    have h1 := parseCostList_le_display es (by simpa [goodVal] using hg)
      (by simpa [numStrFree] using hn)
    show 2 + parseCostList es ≤
      ('(' :: ' ' :: (joinSpace (lvalDisplayList es) ++ [' ', ')'])).length
    simp only [List.length_cons, List.length_append]
    omega
  | Qexpr es =>
    have h1 := parseCostList_le_display es (by simpa [goodVal] using hg)
      (by simpa [numStrFree] using hn)
    show 2 + parseCostList es ≤
      ('[' :: ' ' :: (joinSpace (lvalDisplayList es) ++ [' ', ']'])).length
    simp only [List.length_cons, List.length_append]
    omega
termination_by sizeOf v

theorem parseCostList_le_display (es : List Lval) (hg : goodList es = true)
    (hn : numStrFreeList es = true) :
    parseCostList es ≤ (joinSpace (lvalDisplayList es)).length + 2 := by
  cases es with
  | nil => show 1 ≤ ([] : List Char).length + 2; simp
  | cons v vs =>
    obtain ⟨hgv, hgl⟩ := goodList_cons v vs hg
    obtain ⟨hnv, hnl⟩ := numStrFreeList_cons v vs hn
    have h1 := parseCost_le_display v hgv hnv
    cases vs with
    | nil =>
      show 1 + parseCost v + 1 ≤ (lvalDisplay v).length + 2
      omega
    | cons w ws =>
      have h2 := parseCostList_le_display (w :: ws) hgl hnl
      show 1 + parseCost v + parseCostList (w :: ws) ≤
        (lvalDisplay v ++ ' ' :: joinSpace (lvalDisplayList (w :: ws))).length + 2
      simp only [List.length_append, List.length_cons]
      omega
termination_by sizeOf es

end

theorem root_eq (s : List Char) :
    root s =
      (match many0_expressions (3 * s.length + 3) (multispace0 s) with
       | none => none
       | some (es, r) =>
         if (multispace0 r).isEmpty then some (Lval.Sexpr es) else none) := rfl

theorem root_shape (s : List Char) (v : Lval) (h : root s = some v) :
    ∃ es, v = Lval.Sexpr es := by
  rw [root_eq] at h
  split at h
  · exact absurd h (by simp)
  · split at h
    · injection h with h1
      exact ⟨_, h1.symm⟩
    · exact absurd h (by simp)

theorem root_good (s : List Char) (v : Lval) (h : root s = some v) :
    goodVal v = true := by
  rw [root_eq] at h
  split at h
  · exact absurd h (by simp)
  · split at h
    · injection h with h1
      rw [h1.symm]
      exact (parser_good (3 * s.length + 3)).2.2.2 _ _ _ (by assumption)
    · exact absurd h (by simp)

theorem root_display (s : List Char) (v : Lval) (h : root s = some v)
    (hnf : numStrFree v = true) : root (lvalDisplay v) = some (Lval.Sexpr [v]) := by
  have hg : goodVal v = true := root_good s v h
  obtain ⟨es, rfl⟩ := root_shape s v h
  have hcost : parseCost (Lval.Sexpr es) ≤ (lvalDisplay (Lval.Sexpr es)).length :=
    parseCost_le_display _ hg hnf
  have hp : parse_expression (3 * (lvalDisplay (Lval.Sexpr es)).length + 2)
      (lvalDisplay (Lval.Sexpr es)) = some (Lval.Sexpr es, []) := by
    have := parse_display (Lval.Sexpr es) hg hnf
      (3 * (lvalDisplay (Lval.Sexpr es)).length + 2) []
      (le_trans hcost (by omega)) trivial
    rwa [List.append_nil] at this
  have hlen1 : 1 ≤ (lvalDisplay (Lval.Sexpr es)).length := by
    show 1 ≤ ('(' :: ' ' :: (joinSpace (lvalDisplayList es) ++ [' ', ')'])).length
    simp
  rw [root_eq]
  have hms : multispace0 (lvalDisplay (Lval.Sexpr es)) = lvalDisplay (Lval.Sexpr es) := by
    show multispace0 ('(' :: ' ' :: (joinSpace (lvalDisplayList es) ++ [' ', ')'])) = _
    rfl
  rw [hms]
  rw [show 3 * (lvalDisplay (Lval.Sexpr es)).length + 3 =
    (3 * (lvalDisplay (Lval.Sexpr es)).length + 2) + 1 from by omega]
  rw [many0_step (3 * (lvalDisplay (Lval.Sexpr es)).length + 2)
    (lvalDisplay (Lval.Sexpr es)) [] (Lval.Sexpr es) hp (by simpa using hlen1)]
  rw [show 3 * (lvalDisplay (Lval.Sexpr es)).length + 2 =
    (3 * (lvalDisplay (Lval.Sexpr es)).length + 1) + 1 from by omega]
  rw [many0_none (3 * (lvalDisplay (Lval.Sexpr es)).length + 1) []
    (parse_expression_nil _)]
  rfl

/-- C8 counterexample: the source text `"a"` is accepted by `root` and
yields the value `Sexpr [Str "a"]`; printing it gives `( a )` (the quotes
are lost and `root` adds its outer wrapping S-expression), which re-parses
to `Sexpr [Sexpr [Sym "a"]]` — not structurally equal (the source's
`PartialEq`) to the original value. -/
theorem round_trip_counterexample :
    root ("\"a\"".toList) = some (Lval.Sexpr [Lval.Str ['a']]) ∧
    root (lvalDisplay (Lval.Sexpr [Lval.Str ['a']])) =
      some (Lval.Sexpr [Lval.Sexpr [Lval.Sym ['a']]]) ∧
    lvalEq (Lval.Sexpr [Lval.Sexpr [Lval.Sym ['a']]]) (Lval.Sexpr [Lval.Str ['a']]) =
      false :=
  ⟨rfl, rfl, rfl⟩

/-- C8 (amended): for every source text `s` accepted by `root` whose value
`v` contains no `Num` and no `Str` node, printing `v` and re-parsing the
printed text succeeds and yields exactly `v` wrapped in one extra root
S-expression (the wrapping every `root` parse adds).  `Str` must be
excluded because `Display` prints string contents without quotes; `Num`
because a printed float need not re-read to the same value. -/
theorem round_trip_amended (s : List Char) (v : Lval) (h : root s = some v)
    (hnf : numStrFree v = true) :
    root (lvalDisplay v) = some (Lval.Sexpr [v]) :=
  root_display s v h hnf

/-- Witness: the accepted source `x` parses to `Sexpr [Sym "x"]`, which is
`Num`/`Str`-free, and its printed form `( x )` re-parses to that value
wrapped in one extra S-expression. -/
theorem round_trip_amended_witness :
    root ("x".toList) = some (Lval.Sexpr [Lval.Sym ['x']]) ∧
    numStrFree (Lval.Sexpr [Lval.Sym ['x']]) = true ∧
    root (lvalDisplay (Lval.Sexpr [Lval.Sym ['x']])) =
      some (Lval.Sexpr [Lval.Sexpr [Lval.Sym ['x']]]) :=
  ⟨rfl, rfl, round_trip_amended ("x".toList) (Lval.Sexpr [Lval.Sym ['x']]) rfl rfl⟩

end Bebop
